import Mathlib

/-!
# Verification of the Emotisense analysis-and-scoring pipeline

A shallow embedding, over `ℚ`, of the pure computational core of the
Emotisense backend (`audio_analyzer.py`, `emotion_analyzer.py`,
`report_generator.py`, `video_processor.py`), together with theorems
settling the specification claims about it.

Modelling conventions:
* Python floats are modelled as exact rationals (`ℚ`); `round(x, d)` is
  modelled by round-half-even on the rational value (`rnd`).
* Python dicts with possibly-missing keys are modelled as structures with
  `Option` fields; `d.get(k, v)` becomes `Option.getD`.
* `sorted`/`list.sort` (stable sorts) are modelled by `List.insertionSort`
  with the non-strict relation that makes Mathlib's `orderedInsert`
  reproduce Python's stability (an element being inserted into the sorted
  list of elements that followed it goes before every element it ties with).
* Quantities that `numpy` derives via a square root (standard deviations,
  variances of measured signals) are taken as nonnegative rational inputs
  of the model, since the code only ever consumes them, never recomputes
  them from data in a way the claims depend on.
-/

/-- Round-half-even to the nearest integer, as Python's builtin `round`
rounds a float with no decimal argument. -/
def rndInt (x : ℚ) : ℤ :=
  if x - (⌊x⌋ : ℚ) < 1/2 then ⌊x⌋
  else if 1/2 < x - (⌊x⌋ : ℚ) then ⌊x⌋ + 1
  else if ⌊x⌋ % 2 = 0 then ⌊x⌋ else ⌊x⌋ + 1

/-- Python's `round(x, d)` on the exact rational value. -/
def rnd (d : ℕ) (x : ℚ) : ℚ := (rndInt (x * 10 ^ d) : ℚ) / 10 ^ d

/-- Range predicate `0 ≤ x ≤ 1`: the range every score component is claimed to lie in. -/
def inUnit (x : ℚ) : Prop := 0 ≤ x ∧ x ≤ 1

/-- Arithmetic mean of a list of rationals (`np.mean`); the code never
takes the mean of an empty list on the paths verified below. -/
def qmean (l : List ℚ) : ℚ := l.sum / l.length

/-!
## Audio analyzer (`audio_analyzer.py`)

The raw waveform-derived measurements that `librosa` hands to the pure
aggregation code are gathered in `AudioRaw`; every analysis function below
mirrors the corresponding `AudioAnalyzer` method on those measurements.
-/

/-- The measurements extracted from the loaded waveform before any pure
aggregation happens: the positive-pitch contour statistics of
`librosa.piptrack` (std/variance enter only through ratios, so they are
carried as rational inputs), the RMS-energy frames, the onset count, the
inter-interval pause durations from `librosa.effects.split`, and the clip
duration `len(y)/sr`. -/
structure AudioRaw where
  pitch_nonempty : Bool
  pitch_std : ℚ
  pitch_var : ℚ
  rms : List ℚ
  energy_std : ℚ
  duration : ℚ
  onsets : ℕ
  intervals_count : ℕ
  pauses : List ℚ

/-- Result dict of `_analyze_prosody`; the empty-pitch branch returns a dict
without the `variation_score` key, hence the `Option`. -/
structure Prosody where
  variation_score : Option ℚ
  monotone_score : ℚ

/-- Models `AudioAnalyzer._analyze_prosody`. -/
def analyze_prosody (raw : AudioRaw) : Prosody :=
  if raw.pitch_nonempty = false then
    { variation_score := none, monotone_score := 1 }
  else
    { variation_score := some (min 1 (raw.pitch_std / 100)),
      monotone_score := 1 / (1 + raw.pitch_std / 50) }

/-- Result dict of `_analyze_speaking_rate`; the zero-duration branch
returns a dict without `pace_score`. -/
structure SpeakingRate where
  words_per_minute : ℚ
  pace : String
  pace_score : Option ℚ

/-- Models `AudioAnalyzer._analyze_speaking_rate`. -/
def analyze_speaking_rate (raw : AudioRaw) : SpeakingRate :=
  if raw.duration = 0 then
    { words_per_minute := 0, pace := "unknown", pace_score := none }
  else
    let estimated_words : ℚ := (raw.onsets : ℚ) * 0.7
    let wpm : ℚ := estimated_words / raw.duration * 60
    if wpm < 120 then
      { words_per_minute := rnd 1 wpm, pace := "slow", pace_score := some 0.6 }
    else if wpm ≤ 160 then
      { words_per_minute := rnd 1 wpm, pace := "optimal", pace_score := some 1.0 }
    else if wpm ≤ 200 then
      { words_per_minute := rnd 1 wpm, pace := "fast", pace_score := some 0.7 }
    else
      { words_per_minute := rnd 1 wpm, pace := "very_fast", pace_score := some 0.4 }

/-- Result dict of `_analyze_energy` (the fields the scoring engine and the
claims consume). -/
structure EnergyA where
  mean_energy : ℚ
  consistency_score : ℚ
  low_energy_rate : ℚ
  confidence_indicator : ℚ

/-- Models `AudioAnalyzer._analyze_energy`.  When `mean_energy = 0` (an everywhere
silent clip) numpy evaluates `energy_std / mean_energy` to NaN with a
warning, and Python's `min(1.0, nan)` returns its first argument `1.0`, so
`consistency = 1.0 - 1.0 = 0.0`; that branch is made explicit here. -/
def analyze_energy (raw : AudioRaw) : EnergyA :=
  let mean_energy := qmean raw.rms
  let low_e : ℚ :=
    (raw.rms.countP (fun r => decide (r < mean_energy * 0.5)) : ℚ) / (raw.rms.length : ℚ)
  let consistency : ℚ :=
    if mean_energy = 0 then 0 else 1 - min 1 (raw.energy_std / mean_energy)
  { mean_energy := mean_energy,
    consistency_score := consistency,
    low_energy_rate := low_e,
    confidence_indicator := 1 - low_e }

/-- Models `AudioAnalyzer._calculate_pause_naturalness`. -/
def calculate_pause_naturalness (pauses : List ℚ) : ℚ :=
  if pauses = [] then 0.5
  else (pauses.countP (fun p => decide ((0.3:ℚ) ≤ p ∧ p ≤ 0.8)) : ℚ) / (pauses.length : ℚ)

/-- Result dict of `_analyze_pauses`; the no-intervals branch returns a dict
without `pause_quality` and `naturalness_score`. -/
structure PauseA where
  total_pauses : ℕ
  avg_pause_duration : ℚ
  pause_quality : Option String
  naturalness_score : Option ℚ

/-- Models `AudioAnalyzer._analyze_pauses` (on the gap list already derived from
the speech intervals). -/
def analyze_pauses (raw : AudioRaw) : PauseA :=
  if raw.intervals_count = 0 then
    { total_pauses := 0, avg_pause_duration := 0, pause_quality := none,
      naturalness_score := none }
  else
    let avg_pause : ℚ := if raw.pauses = [] then 0 else qmean raw.pauses
    let quality : String :=
      if raw.pauses = [] then "continuous"
      else if avg_pause < 0.3 then "minimal_pauses"
      else if avg_pause ≤ 0.8 then "natural_pauses"
      else "long_pauses"
    { total_pauses := raw.pauses.length,
      avg_pause_duration := avg_pause,
      pause_quality := some quality,
      naturalness_score := some (calculate_pause_naturalness raw.pauses) }

/-- Result dict of `_analyze_pitch` (the fields the claims consume). -/
structure PitchA where
  pitch_stability : ℚ
  expressiveness : ℚ

/-- Models `AudioAnalyzer._analyze_pitch`. -/
def analyze_pitch (raw : AudioRaw) : PitchA :=
  if raw.pitch_nonempty = false then
    { pitch_stability := 0, expressiveness := 0 }
  else
    { pitch_stability := 1 / (1 + raw.pitch_var / 1000),
      expressiveness :=
        max 0 (min 1 (raw.pitch_std / 80) * (1 - |raw.pitch_std - 50| / 100)) }

/-- The `quality_scores` dict. -/
structure QualityScores where
  clarity : ℚ
  confidence : ℚ
  engagement : ℚ
  overall : ℚ

/-- Models `AudioAnalyzer._calculate_quality_scores`; the `.get(key, 0.5)` defaults
matter exactly for the keys that the degenerate branches leave out. -/
def calculate_quality_scores (p : Prosody) (sr : SpeakingRate) (en : EnergyA)
    (pa : PauseA) (pi' : PitchA) : QualityScores :=
  let clarity := (sr.pace_score.getD 0.5) * 0.6 + en.consistency_score * 0.4
  let confidence := en.confidence_indicator * 0.5 + (1 - p.monotone_score) * 0.3 +
    (pa.naturalness_score.getD 0.5) * 0.2
  let engagement := (p.variation_score.getD 0.5) * 0.4 + pi'.expressiveness * 0.4 +
    (1 - p.monotone_score) * 0.2
  let overall := clarity * 0.3 + confidence * 0.4 + engagement * 0.3
  { clarity := rnd 2 clarity, confidence := rnd 2 confidence,
    engagement := rnd 2 engagement, overall := rnd 2 overall }

/-- Input of `analyze_audio`: either the extracted measurements, or the
failure token standing for any exception raised inside the `try` block
(unreadable file, zero-length audio, a `librosa` error, ...). -/
inductive AudioInput where
  | failure (msg : String)
  | ok (raw : AudioRaw)

/-- The dict returned by `AudioAnalyzer.analyze_audio`: on the error path it
carries only `error` and `duration_seconds = 0` and lacks every analysis
key, in particular `quality_scores`. -/
structure AudioData where
  error : Option String
  duration_seconds : ℚ
  prosody : Option Prosody
  speaking_rate : Option SpeakingRate
  energy_analysis : Option EnergyA
  pause_analysis : Option PauseA
  pitch_analysis : Option PitchA
  quality_scores : Option QualityScores

/-- Models `AudioAnalyzer.analyze_audio`: the whole body runs under
`try/except Exception`, so it is a total function into `AudioData`. -/
def analyze_audio_pipeline (inp : AudioInput) : AudioData :=
  match inp with
  | .failure msg =>
      { error := some ("Audio analysis failed: " ++ msg),
        duration_seconds := 0,
        prosody := none, speaking_rate := none, energy_analysis := none,
        pause_analysis := none, pitch_analysis := none, quality_scores := none }
  | .ok raw =>
      let p := analyze_prosody raw
      let sr := analyze_speaking_rate raw
      let en := analyze_energy raw
      let pa := analyze_pauses raw
      let pi' := analyze_pitch raw
      { error := none,
        duration_seconds := raw.duration,
        prosody := some p, speaking_rate := some sr, energy_analysis := some en,
        pause_analysis := some pa, pitch_analysis := some pi',
        quality_scores := some (calculate_quality_scores p sr en pa pi') }

/-!
## Facial signal aggregation (`emotion_analyzer.py`)
-/

/-- A per-frame record of the analyzer's timeline.  For a frame without a
detected face the Python dict carries only `frame_index`, `face_detected`
and `timestamp`; the remaining fields here then hold inert defaults that no
verified code path reads (every consumer filters on `face_detected`
first, or reads through `.get` guarded by `face_detected`). -/
structure FrameRec where
  frame_index : ℕ
  timestamp : ℚ
  face_detected : Bool
  emotion : String
  emotion_confidence : ℚ
  eye_contact : Bool
  smile_score : ℚ
  engagement_level : ℚ
deriving DecidableEq

/-- First-occurrence key order of a Python `dict`/`Counter` built by
inserting the elements of `l` in order. -/
def firstKeys : List String → List String
  | [] => []
  | e :: t => e :: firstKeys (t.filter (fun x => decide (x ≠ e)))
termination_by l => l.length
decreasing_by
  simp only [List.length_cons]
  exact Nat.lt_succ_of_le (List.length_filter_le _ _)

/-- Models `Counter(emotions).items()`: keys in first-insertion order, each with
its multiplicity. -/
def counter_items (emotions : List String) : List (String × ℕ) :=
  (firstKeys emotions).map (fun e => (e, emotions.count e))

/-- The left fold that keeps the first element attaining the maximal
count; `heapq.nlargest` (used by `Counter.most_common(1)`) is documented to
be equivalent to a stable descending sort, so its first element is exactly
this. -/
def first_max_by (l : List (String × ℕ)) : Option (String × ℕ) :=
  match l with
  | [] => none
  | p :: t => some (t.foldl (fun best q => if best.2 < q.2 then q else best) p)

/-- Models `Counter(emotions).most_common(1)[0][0]`; total with an inert default
for the empty list, which the caller excludes. -/
def dominant_of (emotions : List String) : String :=
  ((first_max_by (counter_items emotions)).map (fun p => p.1)).getD ""

/-- The fields of the summary dict built by `_generate_summary` when at
least one frame has a detected face. -/
structure SummaryFields where
  total_frames_analyzed : ℕ
  frames_with_face : ℕ
  face_detection_rate : ℚ
  eye_contact_percentage : ℚ
  average_smile_authenticity : ℚ
  average_engagement_level : ℚ
  emotion_distribution : List (String × ℚ)
  dominant_emotion : String
  emotional_variability : ℚ

/-- The `summary` value the report generator reads out of the emotion
analysis result: the regular field dict, the error dict
`{"error": "No faces detected in video"}` (which is a *truthy* Python
dict), or no/empty dict (`emotion_data.get("summary", {})` misses). -/
inductive ESummary where
  | nofield
  | failed (msg : String)
  | ok (s : SummaryFields)

/-- Dict-style `.get(key, 0)` access to a numeric summary field:
the error summary and the missing summary have none of the numeric keys. -/
def ESummary.num (s : ESummary) (sel : SummaryFields → ℚ) : ℚ :=
  match s with
  | .ok f => sel f
  | _ => 0

/-- Models `summary.get("emotion_distribution", ...)` with empty-dict default. -/
def ESummary.dist (s : ESummary) : List (String × ℚ) :=
  match s with
  | .ok f => f.emotion_distribution
  | _ => []

/-- Python truthiness of the summary dict (`if emotion_summary:`); note the
error dict is truthy. -/
def ESummary.truthy (s : ESummary) : Bool :=
  match s with
  | .nofield => false
  | _ => true

/-- Whether the summary dict has the `dominant_emotion` key at all. -/
def ESummary.has_dominant (s : ESummary) : Bool :=
  match s with
  | .ok _ => true
  | _ => false

/-- Models `emotion_dist.get(e, 0)` on the percentage histogram. -/
def dist_get (d : List (String × ℚ)) (e : String) : ℚ :=
  ((d.find? (fun p => p.1 == e)).map (fun p => p.2)).getD 0

/-- Models `EmotionAnalyzer._generate_summary`. -/
def generate_summary (timeline : List FrameRec) : ESummary :=
  let valid := timeline.filter (fun f => f.face_detected)
  if valid = [] then .failed "No faces detected in video"
  else
    let emotions := valid.map (fun f => f.emotion)
    let eye_contact_frames := valid.countP (fun f => f.eye_contact)
    let avg_smile := qmean (valid.map (fun f => f.smile_score))
    let avg_engagement := qmean (valid.map (fun f => f.engagement_level))
    let total_emotions := emotions.length
    .ok {
      total_frames_analyzed := timeline.length,
      frames_with_face := valid.length,
      face_detection_rate := (valid.length : ℚ) / (timeline.length : ℚ),
      eye_contact_percentage := ((eye_contact_frames : ℚ) / (valid.length : ℚ)) * 100,
      average_smile_authenticity := rnd 2 avg_smile,
      average_engagement_level := rnd 2 avg_engagement,
      emotion_distribution :=
        (firstKeys emotions).map
          (fun e => (e, rnd 1 (((emotions.count e : ℚ) / (total_emotions : ℚ)) * 100))),
      dominant_emotion := dominant_of emotions,
      emotional_variability := ((firstKeys emotions).length : ℚ) / 7 }

/-!
## Scoring engine (`report_generator.py`, `_calculate_performance_score`)
-/

/-- The six-entry `breakdown` dict of a performance score. -/
structure Breakdown where
  eye_contact : ℚ
  smile_authenticity : ℚ
  engagement : ℚ
  voice_clarity : ℚ
  voice_confidence : ℚ
  voice_engagement : ℚ
deriving DecidableEq

/-- The `PerformanceScore` dict. -/
structure PerformanceScore where
  overall : ℚ
  facial_score : ℚ
  voice_score : ℚ
  breakdown : Breakdown
deriving DecidableEq

/-- The intermediate `eye_contact_score` of line 83:
`min(1.0, eye_contact_pct / 80.0)`. -/
def eye_contact_score (pct : ℚ) : ℚ := min 1 (pct / 80)

/-- Models `ReportGenerator._calculate_performance_score`.  Here `audio_data.get
("quality_scores", {})` is `none` exactly when the audio result was the
error dict (or the key missing); `if quality_scores:` then fails. -/
def calculate_performance_score (esum : ESummary) (qs : Option QualityScores) :
    PerformanceScore :=
  let eye_contact_pct := esum.num (fun f => f.eye_contact_percentage)
  let ecs := eye_contact_score eye_contact_pct
  let smile := esum.num (fun f => f.average_smile_authenticity)
  let engagement := esum.num (fun f => f.average_engagement_level)
  let positive_emotions :=
    dist_get esum.dist "happy" + dist_get esum.dist "confident" +
      dist_get esum.dist "neutral"
  let emotion_score := min 1 (positive_emotions / 70)
  let facial : ℚ :=
    if esum.truthy then
      ecs * 0.375 + smile * 0.25 + engagement * 0.25 + emotion_score * 0.125
    else 0
  let clarity : ℚ := match qs with | some q => q.clarity | none => 0
  let confidence : ℚ := match qs with | some q => q.confidence | none => 0
  let v_engagement : ℚ := match qs with | some q => q.engagement | none => 0
  let voice : ℚ :=
    match qs with
    | some _ => clarity * 0.3 + confidence * 0.4 + v_engagement * 0.3
    | none => 0
  let overall := facial * 0.4 + voice * 0.6
  { overall := rnd 3 overall,
    facial_score := rnd 3 facial,
    voice_score := rnd 3 voice,
    breakdown :=
      { eye_contact := rnd 3 (if esum.truthy then ecs else 0),
        smile_authenticity := rnd 3 (if esum.truthy then smile else 0),
        engagement := rnd 3 (if esum.truthy then engagement else 0),
        voice_clarity := rnd 3 clarity,
        voice_confidence := rnd 3 confidence,
        voice_engagement := rnd 3 v_engagement } }

/-- Models `ReportGenerator._get_rating`. -/
def get_rating (score : ℚ) : String :=
  if 0.8 ≤ score then "Excellent"
  else if 0.6 ≤ score then "Good"
  else if 0.4 ≤ score then "Fair"
  else "Needs Improvement"

/-!
## Insight generation, improvement plan, key moments (`report_generator.py`)
-/

/-- An entry of the improvement plan. -/
structure PlanItem where
  area : String
  current_score : ℚ
  priority : String
  action : String
  target_score : ℚ
deriving DecidableEq

/-- Models the sort key tuple of `plan.sort(key=lambda x: (x["priority"] ==
"high", x["current_score"]))`. -/
def planKey (a : PlanItem) : Bool × ℚ := (a.priority == "high", a.current_score)

/-- Non-strict comparison of those Python tuples (`False < True`). -/
def pairLe (x y : Bool × ℚ) : Prop :=
  (x.1 = false ∧ y.1 = true) ∨ (x.1 = y.1 ∧ x.2 ≤ y.2)

instance : DecidableRel pairLe := fun x y =>
  inferInstanceAs (Decidable ((x.1 = false ∧ y.1 = true) ∨ (x.1 = y.1 ∧ x.2 ≤ y.2)))

instance : IsTotal (Bool × ℚ) pairLe where
  total x y := by
    rcases x with ⟨bx, sx⟩
    rcases y with ⟨by', sy⟩
    rcases le_total sx sy with h | h <;> cases bx <;> cases by' <;> simp [pairLe, h]

instance : IsTrans (Bool × ℚ) pairLe where
  trans x y z hxy hyz := by
    rcases x with ⟨bx, sx⟩
    rcases y with ⟨by', sy⟩
    rcases z with ⟨bz, sz⟩
    simp only [pairLe] at *
    cases bx <;> cases by' <;> cases bz <;> simp_all <;> linarith

/-- The relation under which `List.insertionSort` reproduces the stable
ascending `plan.sort`. -/
def planLe (a b : PlanItem) : Prop := pairLe (planKey a) (planKey b)

instance : DecidableRel planLe := fun a b =>
  inferInstanceAs (Decidable (pairLe (planKey a) (planKey b)))

instance : IsTotal PlanItem planLe where
  total a b := IsTotal.total (r := pairLe) (planKey a) (planKey b)

instance : IsTrans PlanItem planLe where
  trans a b c := IsTrans.trans (r := pairLe) (planKey a) (planKey b) (planKey c)

/-- One appended plan entry of the `_create_improvement_plan` loop. -/
def plan_entry (score : ℚ) (title action : String) : PlanItem :=
  { area := title, current_score := rnd 2 score,
    priority := if score < 0.4 then "high" else "medium",
    action := action, target_score := 0.7 }

/-- The plan list in encounter order, before sorting: one entry per metric
of the fixed five-metric table whose breakdown score is below 0.6.
(The action texts are the source texts, with straight prose in place of
apostrophes.) -/
def plan_candidates (bd : Breakdown) : List PlanItem :=
  (if bd.eye_contact < 0.6 then
    [plan_entry bd.eye_contact "Eye Contact"
      "Practice looking directly at the camera lens. Imagine you are talking to a friend."]
   else []) ++
  (if bd.smile_authenticity < 0.6 then
    [plan_entry bd.smile_authenticity "Facial Expressions"
      "Practice genuine smiles in the mirror. Think of something pleasant before speaking."]
   else []) ++
  (if bd.voice_clarity < 0.6 then
    [plan_entry bd.voice_clarity "Speech Clarity"
      "Slow down by 10-20 percent. Enunciate clearly. Practice tongue twisters."]
   else []) ++
  (if bd.voice_confidence < 0.6 then
    [plan_entry bd.voice_confidence "Vocal Confidence"
      "Breathe deeply. Project from your diaphragm. Record yourself daily."]
   else []) ++
  (if bd.voice_engagement < 0.6 then
    [plan_entry bd.voice_engagement "Voice Variation"
      "Practice emphasizing key words. Vary your pitch when telling stories."]
   else [])

/-- Models `ReportGenerator._create_improvement_plan`. -/
def create_improvement_plan (bd : Breakdown) : List PlanItem :=
  (List.insertionSort planLe (plan_candidates bd)).take 5

/-- The two key-moment description templates, with their numeric payload. -/
inductive MomentDesc where
  | peak (score : ℚ)
  | eye_break
deriving DecidableEq

/-- Truncation toward zero, as Python `int()` on a float. -/
def pyInt (x : ℚ) : ℤ := if 0 ≤ x then ⌊x⌋ else -⌊-x⌋

/-- Python float floor-division `a // b`. -/
def pyFloorDiv (a b : ℚ) : ℚ := ((⌊a / b⌋ : ℤ) : ℚ)

/-- Python float modulo `a % b` (sign follows the divisor). -/
def pyMod (a b : ℚ) : ℚ := a - b * ((⌊a / b⌋ : ℤ) : ℚ)

/-- A key-moment record; `fmt_min`/`fmt_sec` carry the payloads of the
mm:ss `timestamp_formatted` string. -/
structure Moment where
  timestamp : ℚ
  type : String
  desc : MomentDesc
  fmt_min : ℤ
  fmt_sec : ℤ
deriving DecidableEq

/-- Builds a `peak_engagement` moment from a `(timestamp, engagement)`
pair. -/
def mk_peak_moment (p : ℚ × ℚ) : Moment :=
  { timestamp := p.1, type := "peak_engagement", desc := .peak p.2,
    fmt_min := pyInt (pyFloorDiv p.1 60), fmt_sec := pyInt (pyMod p.1 60) }

/-- Builds an `improvement_opportunity` moment from a frame. -/
def mk_imp_moment (f : FrameRec) : Moment :=
  { timestamp := f.timestamp, type := "improvement_opportunity", desc := .eye_break,
    fmt_min := pyInt (pyFloorDiv f.timestamp 60), fmt_sec := pyInt (pyMod f.timestamp 60) }

/-- Non-strict descending comparison on the engagement component: under
`List.insertionSort` this reproduces the stable
`sorted(engagement_scores, key=lambda x: x[1], reverse=True)`. -/
def engPairDesc (p q : ℚ × ℚ) : Prop := q.2 ≤ p.2

instance : DecidableRel engPairDesc := fun p q =>
  inferInstanceAs (Decidable (q.2 ≤ p.2))

instance : IsTotal (ℚ × ℚ) engPairDesc where
  total p q := by
    show q.2 ≤ p.2 ∨ p.2 ≤ q.2
    exact le_total q.2 p.2

instance : IsTrans (ℚ × ℚ) engPairDesc where
  trans a b c h1 h2 := by
    show c.2 ≤ a.2
    exact le_trans h2 h1

/-- Non-strict comparison on timestamps: under `List.insertionSort` this
reproduces the stable `moments.sort(key=lambda x: x["timestamp"])`. -/
def momentTsLe (m1 m2 : Moment) : Prop := m1.timestamp ≤ m2.timestamp

instance : DecidableRel momentTsLe := fun m1 m2 =>
  inferInstanceAs (Decidable (m1.timestamp ≤ m2.timestamp))

instance : IsTotal Moment momentTsLe where
  total m1 m2 := le_total m1.timestamp m2.timestamp

instance : IsTrans Moment momentTsLe where
  trans _ _ _ h1 h2 := le_trans h1 h2

/-- Python slicing `l[::k]` for a positive step `k`.  (The code only calls
it with `k = len(l) // 3` after checking `len(l) > 5`, so `k ≥ 2`.) -/
def everyNth : List α → ℕ → List α
  | [], _ => []
  | a :: t, k => a :: everyNth (t.drop (k - 1)) k
termination_by l => l.length
decreasing_by
  simp only [List.length_cons, List.length_drop]
  omega

/-- Models `ReportGenerator._identify_key_moments`. -/
def identify_key_moments (timeline : List FrameRec) : List Moment :=
  let engagement_scores :=
    (timeline.filter (fun f => f.face_detected)).map
      (fun f => (f.timestamp, f.engagement_level))
  let peaks :=
    if engagement_scores.isEmpty then []
    else ((List.insertionSort engPairDesc engagement_scores).take 3).map mk_peak_moment
  let poor_eye_contact := timeline.filter (fun f => f.face_detected && !f.eye_contact)
  let improvements :=
    if 5 < poor_eye_contact.length then
      ((everyNth poor_eye_contact (poor_eye_contact.length / 3)).take 3).map mk_imp_moment
    else []
  (List.insertionSort momentTsLe (peaks ++ improvements)).take 10

/-!
## Per-frame facial analysis (`emotion_analyzer.py`, `_analyze_single_frame`)
-/

/-- What the Haar-cascade detectors report for a frame on which at least
one face was found: the frame geometry, the largest face box (the code
keeps `max(faces, key=area)`), and the eye/smile detection counts inside
that box. -/
structure FaceDetected where
  frame_w : ℚ
  frame_h : ℚ
  x : ℚ
  y : ℚ
  w : ℚ
  h : ℚ
  eyes : ℕ
  smiles : ℕ
deriving DecidableEq

/-- Non-strict descending comparison on the confidence component of the
candidate-emotion pairs, reproducing the stable
`emotions.sort(key=lambda x: x[1], reverse=True)`. -/
def byConfDesc (p q : String × ℚ) : Prop := q.2 ≤ p.2

instance : DecidableRel byConfDesc := fun p q =>
  inferInstanceAs (Decidable (q.2 ≤ p.2))

instance : IsTotal (String × ℚ) byConfDesc where
  total p q := by
    show q.2 ≤ p.2 ∨ p.2 ≤ q.2
    exact le_total q.2 p.2

instance : IsTrans (String × ℚ) byConfDesc where
  trans a b c h1 h2 := by
    show c.2 ≤ a.2
    exact le_trans h2 h1

/-- The candidate list built by `_estimate_emotion` before sorting. -/
def emotion_candidates (has_eyes has_smile : Bool) (eye_count : ℕ) :
    List (String × ℚ) :=
  let base : List (String × ℚ) :=
    if has_smile && decide (2 ≤ eye_count) then [("happy", 0.8)]
    else if has_smile && decide (eye_count < 2) then [("happy", 0.5), ("nervous", 0.4)]
    else if !has_smile && decide (2 ≤ eye_count) then
      [("neutral", 0.6), ("confident", 0.5)]
    else if !has_smile && decide (eye_count < 2) then
      [("thoughtful", 0.5), ("nervous", 0.4)]
    else [("neutral", 0.5)]
  if has_eyes && !has_smile then base ++ [("confident", 0.6)] else base

/-- Models `EmotionAnalyzer._estimate_emotion`: primary emotion and its
confidence (the head of the stable descending sort), plus the next two
labels as secondary emotions. -/
def estimate_emotion (has_eyes has_smile : Bool) (eye_count _smile_count : ℕ) :
    String × ℚ × List String :=
  let sorted := List.insertionSort byConfDesc (emotion_candidates has_eyes has_smile eye_count)
  match sorted with
  | [] => ("neutral", 0.5, [])
  | p :: rest => (p.1, p.2, (rest.take 2).map (fun q => q.1))

/-- Models `EmotionAnalyzer._calculate_smile_score`. -/
def calculate_smile_score (has_smile has_eyes : Bool) (smile_count : ℕ) : ℚ :=
  if !has_smile then 0
  else
    min 1 ((0.5 : ℚ) + (if has_eyes then 0.3 else 0) + (if 1 < smile_count then 0.2 else 0))

/-- Models `EmotionAnalyzer._calculate_engagement`. -/
def calculate_engagement (has_eyes eye_contact has_smile : Bool) : ℚ :=
  min 1 ((if has_eyes then (0.3:ℚ) else 0) + (if eye_contact then 0.4 else 0) +
    (if has_smile then 0.3 else 0))

/-- Models `EmotionAnalyzer._analyze_single_frame`.  The source compares
`distance_from_center < max_distance * 0.5` where both sides are
nonnegative square roots; it is embedded as the equivalent comparison of
squares (`max_distance = sqrt(h² + w²)/4`, so the threshold squared is
`(h² + w²)/64`). -/
def analyze_single_frame (det : Option FaceDetected) (idx : ℕ) : FrameRec :=
  match det with
  | none =>
      { frame_index := idx, timestamp := (idx : ℚ) / 5, face_detected := false,
        emotion := "", emotion_confidence := 0, eye_contact := false,
        smile_score := 0, engagement_level := 0 }
  | some d =>
      let has_eyes := decide (2 ≤ d.eyes)
      let has_smile := decide (0 < d.smiles)
      let face_center_x := d.x + d.w / 2
      let face_center_y := d.y + d.h / 2
      let dist_sq := (face_center_x - d.frame_w / 2) ^ 2 +
        (face_center_y - d.frame_h / 2) ^ 2
      let diag_sq := d.frame_h ^ 2 + d.frame_w ^ 2
      let eye_contact := decide (dist_sq < diag_sq / 64)
      let em := estimate_emotion has_eyes has_smile d.eyes d.smiles
      { frame_index := idx, timestamp := (idx : ℚ) / 5, face_detected := true,
        emotion := em.1, emotion_confidence := em.2.1, eye_contact := eye_contact,
        smile_score := calculate_smile_score has_smile has_eyes d.smiles,
        engagement_level := calculate_engagement has_eyes eye_contact has_smile }

/-- The result of `EmotionAnalyzer.analyze_frames` that the report
generator consumes (`facial_features` is built too but never read by the
report code). -/
structure EmotionData where
  timeline : List FrameRec
  summary : ESummary

/-- Models `EmotionAnalyzer.analyze_frames` on the per-frame detector
outputs (`enumerate(frames)` supplies the index). -/
def analyze_frames (dets : List (Option FaceDetected)) : EmotionData :=
  let timeline := dets.enum.map (fun p => analyze_single_frame p.2 p.1)
  { timeline := timeline, summary := generate_summary timeline }

/-!
## Narrative parts of the report (`report_generator.py`)
-/

/-- Models `summary.get("dominant_emotion", default)`. -/
def ESummary.dominant_or (s : ESummary) (d : String) : String :=
  match s with
  | .ok f => f.dominant_emotion
  | _ => d

/-- The insight template strings of `_generate_insights`, with their
numeric payloads. -/
inductive Insight where
  | eye_strong (pct0 : ℤ)
  | eye_low (pct0 : ℤ)
  | smile_genuine
  | smile_forced
  | pace_optimal (wpm0 : ℤ)
  | pace_fast (wpm0 : ℤ)
  | pace_slow (wpm0 : ℤ)
  | energy_strong
  | energy_low
deriving DecidableEq

/-- Models `ReportGenerator._generate_insights` (the `{:.0f}` payloads are
carried through `rndInt`). -/
def generate_insights (esum : ESummary) (ad : AudioData) : List Insight :=
  let eye_contact := esum.num (fun f => f.eye_contact_percentage)
  let smile := esum.num (fun f => f.average_smile_authenticity)
  let wpm := ((ad.speaking_rate.map (fun s => s.words_per_minute)).getD 0)
  let ci := ((ad.energy_analysis.map (fun e => e.confidence_indicator)).getD 0)
  (if (70:ℚ) ≤ eye_contact then [Insight.eye_strong (rndInt eye_contact)]
   else if eye_contact < 50 then [Insight.eye_low (rndInt eye_contact)] else []) ++
  (if (0.7:ℚ) ≤ smile then [Insight.smile_genuine]
   else if smile < 0.4 ∧ 0 < smile then [Insight.smile_forced] else []) ++
  (if 0 < wpm then
    (if 120 ≤ wpm ∧ wpm ≤ 160 then [Insight.pace_optimal (rndInt wpm)]
     else if 180 < wpm then [Insight.pace_fast (rndInt wpm)]
     else if wpm < 100 then [Insight.pace_slow (rndInt wpm)] else [])
   else []) ++
  (if (0.7:ℚ) ≤ ci then [Insight.energy_strong]
   else if ci < 0.5 then [Insight.energy_low] else [])

/-- Models `ReportGenerator._identify_strengths`. -/
def identify_strengths (bd : Breakdown) : List String :=
  let base :=
    (if (0.7:ℚ) ≤ bd.eye_contact then
      ["Excellent eye contact - maintains connection with audience"] else []) ++
    (if (0.7:ℚ) ≤ bd.smile_authenticity then
      ["Authentic, warm facial expressions"] else []) ++
    (if (0.7:ℚ) ≤ bd.voice_clarity then
      ["Clear and well-paced speech delivery"] else []) ++
    (if (0.7:ℚ) ≤ bd.voice_confidence then
      ["Confident vocal presence with good energy"] else []) ++
    (if (0.7:ℚ) ≤ bd.voice_engagement then
      ["Engaging voice with good pitch variation"] else []) ++
    (if (0.7:ℚ) ≤ bd.engagement then
      ["High overall engagement and presence"] else [])
  (if base = [] then
    ["Baseline performance established - focus on improvement areas below"]
   else base).take 5

/-- Models `ReportGenerator._identify_weaknesses`. -/
def identify_weaknesses (bd : Breakdown) (ad : AudioData) : List String :=
  let monotone := ((ad.prosody.map (fun p => p.monotone_score)).getD 0)
  let wpm := ((ad.speaking_rate.map (fun s => s.words_per_minute)).getD 0)
  ((if bd.eye_contact < 0.5 then
      ["Eye contact needs improvement - look at camera more often"] else []) ++
   (if bd.smile_authenticity < 0.4 then
      ["Work on natural, authentic facial expressions"] else []) ++
   (if bd.voice_clarity < 0.5 then
      ["Speech clarity - adjust pace and enunciation"] else []) ++
   (if bd.voice_confidence < 0.5 then
      ["Vocal confidence - increase volume and reduce pauses"] else []) ++
   (if bd.voice_engagement < 0.5 then
      ["Voice monotony - add more pitch variation and enthusiasm"] else []) ++
   (if (0.7:ℚ) < monotone then
      ["Voice is too monotone - vary your pitch more"] else []) ++
   (if (200:ℚ) < wpm then
      ["Speaking too fast - slow down for better clarity"] else [])).take 5

/-- Video metadata handed to the report generator. -/
structure Metadata where
  fps : ℚ
  frame_count : ℕ
  width : ℕ
  height : ℕ
  duration_seconds : ℚ
deriving DecidableEq

/-- The data content of the natural-language summary template of
`_generate_summary` in the report generator. -/
structure SummaryText where
  dur_min : ℤ
  dur_sec : ℤ
  dominant_emotion : String
  eye_contact_pct0 : ℤ
  voice_tier : String
deriving DecidableEq

/-- Models `ReportGenerator._generate_summary` by its interpolated data. -/
def generate_summary_text (esum : ESummary) (ad : AudioData) (meta : Metadata) :
    SummaryText :=
  let duration := meta.duration_seconds
  let overall_voice := ((ad.quality_scores.map (fun q => q.overall)).getD 0)
  { dur_min := pyInt (pyFloorDiv duration 60),
    dur_sec := pyInt (pyMod duration 60),
    dominant_emotion := esum.dominant_or "neutral",
    eye_contact_pct0 := rndInt (esum.num (fun f => f.eye_contact_percentage)),
    voice_tier :=
      if (0.7:ℚ) ≤ overall_voice then "strong"
      else if (0.5:ℚ) ≤ overall_voice then "adequate"
      else "needs_improvement" }

/-- Data content of `_format_facial_metrics` (each `{:.Nf}` format payload
carried as the correspondingly rounded number). -/
structure FacialMetricsFmt where
  face_detection_rate_pct : ℚ
  eye_contact_pct : ℚ
  smile100 : ℤ
  engagement100 : ℤ
  dominant_emotion : String
  emotion_distribution : List (String × ℚ)
  emotional_range100 : ℤ
deriving DecidableEq

/-- Models `ReportGenerator._format_facial_metrics`. -/
def format_facial_metrics (esum : ESummary) : FacialMetricsFmt :=
  { face_detection_rate_pct := rnd 1 (esum.num (fun f => f.face_detection_rate) * 100),
    eye_contact_pct := rnd 1 (esum.num (fun f => f.eye_contact_percentage)),
    smile100 := rndInt (esum.num (fun f => f.average_smile_authenticity) * 100),
    engagement100 := rndInt (esum.num (fun f => f.average_engagement_level) * 100),
    dominant_emotion := esum.dominant_or "unknown",
    emotion_distribution := esum.dist,
    emotional_range100 := rndInt (esum.num (fun f => f.emotional_variability) * 100) }

/-- Data content of `_format_voice_metrics`. -/
structure VoiceMetricsFmt where
  duration : ℚ
  speaking_pace : String
  words_per_minute : ℚ
  voice_clarity100 : ℤ
  voice_confidence100 : ℤ
  voice_engagement100 : ℤ
  pause_quality : String
  pitch_variation100 : ℤ
deriving DecidableEq

/-- Models `ReportGenerator._format_voice_metrics`. -/
def format_voice_metrics (ad : AudioData) : VoiceMetricsFmt :=
  { duration := rnd 1 ad.duration_seconds,
    speaking_pace := (ad.speaking_rate.map (fun s => s.pace)).getD "unknown",
    words_per_minute := (ad.speaking_rate.map (fun s => s.words_per_minute)).getD 0,
    voice_clarity100 :=
      rndInt (((ad.quality_scores.map (fun q => q.clarity)).getD 0) * 100),
    voice_confidence100 :=
      rndInt (((ad.quality_scores.map (fun q => q.confidence)).getD 0) * 100),
    voice_engagement100 :=
      rndInt (((ad.quality_scores.map (fun q => q.engagement)).getD 0) * 100),
    pause_quality := ((ad.pause_analysis.bind (fun p => p.pause_quality)).getD "unknown"),
    pitch_variation100 :=
      rndInt (((ad.prosody.bind (fun p => p.variation_score)).getD 0) * 100) }

/-- The report dict, with `generated_at` carrying the wall-clock value
captured by `datetime.now().isoformat()`. -/
structure Report where
  performance_score : PerformanceScore
  rating : String
  summary : SummaryText
  insights : List Insight
  strengths : List String
  weaknesses : List String
  improvement_plan : List PlanItem
  key_moments : List Moment
  facial_metrics : FacialMetricsFmt
  voice_metrics : VoiceMetricsFmt
  generated_at : String

/-- Models `ReportGenerator.generate_report`; the clock read is passed in
as the explicit `now` argument, which is the only place it can reach. -/
def generate_report (e : EmotionData) (a : AudioData) (m : Metadata)
    (now : String) : Report :=
  let ps := calculate_performance_score e.summary a.quality_scores
  { performance_score := ps,
    rating := get_rating ps.overall,
    summary := generate_summary_text e.summary a m,
    insights := generate_insights e.summary a,
    strengths := identify_strengths ps.breakdown,
    weaknesses := identify_weaknesses ps.breakdown a,
    improvement_plan := create_improvement_plan ps.breakdown,
    key_moments := identify_key_moments e.timeline,
    facial_metrics := format_facial_metrics e.summary,
    voice_metrics := format_voice_metrics a,
    generated_at := now }

/-!
## Concrete inputs used by counterexamples and witnesses
-/

/-- A concrete facial summary whose stored (3-decimal-rounded) scores
violate the exact weighted-sum identity beyond `1e-9`. -/
def c1_esum : ESummary := .ok {
  total_frames_analyzed := 10, frames_with_face := 10,
  face_detection_rate := 1, eye_contact_percentage := 0,
  average_smile_authenticity := 0.4936, average_engagement_level := 0,
  emotion_distribution := [], dominant_emotion := "neutral",
  emotional_variability := 1/7 }

/-- A frame record for a frame on which no face was detected. -/
def no_face_frame : FrameRec :=
  { frame_index := 0, timestamp := 0, face_detected := false, emotion := "",
    emotion_confidence := 0, eye_contact := false, smile_score := 0,
    engagement_level := 0 }

/-- A fully degenerate audio measurement set: empty pitch contour, silent
single-frame RMS, zero duration, no onsets, no speech intervals. -/
def c2_raw : AudioRaw :=
  { pitch_nonempty := false, pitch_std := 0, pitch_var := 0, rms := [0],
    energy_std := 0, duration := 0, onsets := 0, intervals_count := 0, pauses := [] }

/-- A breakdown with one high-priority metric (eye contact 0.3) and one
medium-priority metric (smile 0.5) below the 0.6 inclusion bar. -/
def c4_bd : Breakdown :=
  { eye_contact := 0.3, smile_authenticity := 0.5, engagement := 1,
    voice_clarity := 1, voice_confidence := 1, voice_engagement := 1 }

/-- Requirement taken from the claim wording: priority descending, i.e. no
high-priority entry appears after a medium-priority entry. -/
def spec_plan_priority_desc (l : List PlanItem) : Prop :=
  l.Pairwise (fun a b => ¬(a.priority = "medium" ∧ b.priority = "high"))

/-- A face-detected frame with a given index and emotion label, used by
concrete witnesses. -/
def c5_frame (i : ℕ) (e : String) : FrameRec :=
  { frame_index := i, timestamp := (i : ℚ) / 5, face_detected := true, emotion := e,
    emotion_confidence := 0.6, eye_contact := true, smile_score := 0.5,
    engagement_level := 0.5 }

/-- Three face-detected frames whose emotion histogram is
neutral 1, happy 2. -/
def c5_timeline : List FrameRec :=
  [c5_frame 0 "neutral", c5_frame 1 "happy", c5_frame 2 "happy"]

/-- Requirement taken from claim C6's wording: `p` beats `q` when its
engagement is strictly higher, or they tie and `p` has the earlier (or
equal) timestamp.  Pairs are `(timestamp, engagement_level)`. -/
def engLex (p q : ℚ × ℚ) : Prop := q.2 < p.2 ∨ (p.2 = q.2 ∧ p.1 ≤ q.1)

/-- A face-detected frame with full eye contact and a given engagement
level, at timestamp `i / 5`. -/
def c6_frame (i : ℕ) (g : ℚ) : FrameRec :=
  { frame_index := i, timestamp := (i : ℚ) / 5, face_detected := true,
    emotion := "happy", emotion_confidence := 0.8, eye_contact := true,
    smile_score := 0.5, engagement_level := g }

/-- The claim's 10-frame example with engagement levels
0.1, 0.9, 0.2, 0.8, 0.3, 0.7, 0.1, 0.6, 0.0, 0.5. -/
def c6_frames : List FrameRec :=
  [c6_frame 0 0.1, c6_frame 1 0.9, c6_frame 2 0.2, c6_frame 3 0.8, c6_frame 4 0.3,
   c6_frame 5 0.7, c6_frame 6 0.1, c6_frame 7 0.6, c6_frame 8 0.0, c6_frame 9 0.5]

/-- Boolean test that a rational is a whole number of fifths of a second,
i.e. of the form `k / 5` for some natural `k`. -/
def fifth (q : ℚ) : Bool := decide ((5 * q).den = 1) && decide (0 ≤ (5 * q).num)

/-!
## Helper lemmas about rounding
-/

theorem abs_rndInt_sub (x : ℚ) : |(rndInt x : ℚ) - x| ≤ 1/2 := by
  have hf : ((⌊x⌋ : ℤ) : ℚ) ≤ x := Int.floor_le x
  have hf2 : x < ((⌊x⌋ : ℤ) : ℚ) + 1 := Int.lt_floor_add_one x
  unfold rndInt
  split_ifs with h1 h2 h3 <;> push_cast <;> rw [abs_le] <;> constructor <;> linarith

theorem rndInt_nonneg {x : ℚ} (hx : 0 ≤ x) : 0 ≤ rndInt x := by
  have hf : (0:ℤ) ≤ ⌊x⌋ := Int.floor_nonneg.mpr hx
  unfold rndInt
  split_ifs <;> omega

theorem rndInt_le {x : ℚ} {n : ℤ} (hx : x ≤ (n:ℚ)) : rndInt x ≤ n := by
  have hf : ⌊x⌋ ≤ n := Int.floor_le_floor (α := ℚ) hx |>.trans_eq (Int.floor_intCast n)
  have hfq : ((⌊x⌋ : ℤ) : ℚ) ≤ x := Int.floor_le x
  unfold rndInt
  split_ifs with h1 h2 h3
  · exact hf
  · have hlt : (⌊x⌋ : ℚ) < (n : ℚ) := by linarith
    have hfn : ⌊x⌋ < n := by exact_mod_cast hlt
    omega
  · exact hf
  · have hlt : (⌊x⌋ : ℚ) < (n : ℚ) := by linarith
    have hfn : ⌊x⌋ < n := by exact_mod_cast hlt
    omega

theorem rnd_nonneg {x : ℚ} (d : ℕ) (hx : 0 ≤ x) : 0 ≤ rnd d x := by
  unfold rnd
  have h1 : (0:ℚ) ≤ (rndInt (x * 10 ^ d) : ℚ) := by
    exact_mod_cast rndInt_nonneg (by positivity)
  positivity

theorem rnd_le_one {x : ℚ} (d : ℕ) (hx : x ≤ 1) : rnd d x ≤ 1 := by
  unfold rnd
  have hb : x * 10 ^ d ≤ ((10 ^ d : ℤ) : ℚ) := by
    push_cast
    have hp : (0:ℚ) < 10 ^ d := by positivity
    nlinarith
  have h1 : rndInt (x * 10 ^ d) ≤ 10 ^ d := rndInt_le hb
  have h2 : ((rndInt (x * 10 ^ d) : ℤ) : ℚ) ≤ ((10 ^ d : ℤ) : ℚ) := by exact_mod_cast h1
  have hp : (0:ℚ) < 10 ^ d := by positivity
  rw [div_le_one hp]
  push_cast at h2 ⊢
  exact h2

theorem abs_rnd_sub (d : ℕ) (x : ℚ) : |rnd d x - x| ≤ 1 / (2 * 10 ^ d) := by
  unfold rnd
  have hp : (0:ℚ) < 10 ^ d := by positivity
  have h := abs_rndInt_sub (x * 10 ^ d)
  rw [show (rndInt (x * 10 ^ d) : ℚ) / 10 ^ d - x
        = ((rndInt (x * 10 ^ d) : ℚ) - x * 10 ^ d) / 10 ^ d by field_simp; ring]
  rw [abs_div, abs_of_pos hp, div_le_div_iff₀ hp (by positivity)]
  calc |(rndInt (x * 10 ^ d) : ℚ) - x * 10 ^ d| * (2 * 10 ^ d)
      ≤ (1/2) * (2 * 10 ^ d) := mul_le_mul_of_nonneg_right h (by positivity)
    _ = 1 * 10 ^ d := by ring

@[simp] theorem rndInt_zero : rndInt 0 = 0 := by
  unfold rndInt
  norm_num

@[simp] theorem rnd_zero (d : ℕ) : rnd d 0 = 0 := by
  unfold rnd
  simp

theorem rnd_inUnit {x : ℚ} (d : ℕ) (h : inUnit x) : inUnit (rnd d x) :=
  ⟨rnd_nonneg d h.1, rnd_le_one d h.2⟩

theorem rnd3_weighted (f v : ℚ) :
    |rnd 3 (f * 0.4 + v * 0.6) - (0.4 * rnd 3 f + 0.6 * rnd 3 v)| ≤ 1/1000 := by
  have h1 := abs_rnd_sub 3 (f * 0.4 + v * 0.6)
  have h2 := abs_rnd_sub 3 f
  have h3 := abs_rnd_sub 3 v
  have e : (1:ℚ) / (2 * 10 ^ 3) = 1/2000 := by norm_num
  rw [e] at h1 h2 h3
  rw [abs_le] at h1 h2 h3 ⊢
  constructor <;> linarith [h1.1, h1.2, h2.1, h2.2, h3.1, h3.2]

/-!
## Claim theorems
-/

/-- C1 (counterexample): at the concrete summary `c1_esum` (smile
authenticity 0.4936, everything else zero, no audio quality scores) the
*stored* score fields satisfy `overall = 0.049` and `facial_score = 0.123`,
so `overall - (0.4·facial + 0.6·voice) = -0.0002`, which is not within the
claimed `1e-9` tolerance. -/
theorem C1_counterexample :
    ¬ |(calculate_performance_score c1_esum none).overall -
        (0.4 * (calculate_performance_score c1_esum none).facial_score +
         0.6 * (calculate_performance_score c1_esum none).voice_score)|
      ≤ 1/1000000000 := by
  norm_num [calculate_performance_score, c1_esum, ESummary.num, ESummary.dist,
    ESummary.truthy, eye_contact_score, dist_get, rnd, rndInt, min_def]
  rw [abs_of_pos (by norm_num : (0:ℚ) < 1/5000)]
  norm_num

/-- C1 (amended): the invariant `overall = 0.4·facial_score +
0.6·voice_score` holds exactly for the scores before their 3-decimal
rounding; for the values actually stored in the returned score object it
holds within tolerance `1e-3` (half an ulp of the 3-decimal rounding on
each of the three stored fields), not `1e-9`. -/
theorem C1_overall_weighted_combination (esum : ESummary) (qs : Option QualityScores) :
    |(calculate_performance_score esum qs).overall -
      (0.4 * (calculate_performance_score esum qs).facial_score +
       0.6 * (calculate_performance_score esum qs).voice_score)| ≤ 1/1000 := by
  cases qs with
  | none =>
      simp only [calculate_performance_score]
      exact rnd3_weighted _ _
  | some q =>
      simp only [calculate_performance_score]
      exact rnd3_weighted _ _

/-- C7: with the other facial inputs fixed (they do not enter the
eye-contact sub-score at all), the eye-contact sub-score is monotone in the
eye-contact percentage, strictly increasing while the percentage stays at
or below the cap 80, and identically 1 from 80 upward. -/
theorem C7_eye_contact_monotone (p1 p2 : ℚ) (h : p1 ≤ p2) :
    eye_contact_score p1 ≤ eye_contact_score p2 ∧
    (p1 < p2 → p2 ≤ 80 → eye_contact_score p1 < eye_contact_score p2) ∧
    (80 ≤ p1 → eye_contact_score p1 = 1) := by
  refine ⟨?_, fun hlt hle => ?_, fun hge => ?_⟩ <;>
    simp only [eye_contact_score, min_def] <;> split_ifs <;> first | rfl | linarith

theorem C7_witness :
    eye_contact_score 40 < eye_contact_score 60 ∧ eye_contact_score 90 = 1 :=
  ⟨(C7_eye_contact_monotone 40 60 (by norm_num)).2.1 (by norm_num) (by norm_num),
   (C7_eye_contact_monotone 90 90 le_rfl).2.2 (by norm_num)⟩

/-- C10: on any internal failure `analyze_audio` returns the error dict
with `duration_seconds = 0` and no `quality_scores` key, and the scoring
engine run on that result still completes with `voice_score = 0` and all
three voice breakdown entries equal to 0, whatever the facial summary. -/
theorem C10_audio_error_flow (msg : String) (esum : ESummary) :
    (analyze_audio_pipeline (.failure msg)).error
        = some ("Audio analysis failed: " ++ msg) ∧
    (analyze_audio_pipeline (.failure msg)).duration_seconds = 0 ∧
    (analyze_audio_pipeline (.failure msg)).quality_scores = none ∧
    (calculate_performance_score esum
        (analyze_audio_pipeline (.failure msg)).quality_scores).voice_score = 0 ∧
    (calculate_performance_score esum
        (analyze_audio_pipeline (.failure msg)).quality_scores).breakdown.voice_clarity
      = 0 ∧
    (calculate_performance_score esum
        (analyze_audio_pipeline (.failure msg)).quality_scores).breakdown.voice_confidence
      = 0 ∧
    (calculate_performance_score esum
        (analyze_audio_pipeline (.failure msg)).quality_scores).breakdown.voice_engagement
      = 0 := by
  refine ⟨rfl, rfl, rfl, ?_, ?_, ?_, ?_⟩ <;>
    simp [analyze_audio_pipeline, calculate_performance_score]

/-- C3: if no frame of the timeline has a detected face (in particular for
the empty timeline), the summary is the explicit no-face result (built
without any division), it has no `dominant_emotion` key, its
face-detection rate reads as zero, and the scoring engine still returns a
performance score with `facial_score = 0` and all three facial breakdown
entries 0, for any audio quality scores. -/
theorem C3_no_face_summary_and_score (timeline : List FrameRec)
    (qs : Option QualityScores) (h : ∀ f ∈ timeline, f.face_detected = false) :
    generate_summary timeline = .failed "No faces detected in video" ∧
    (generate_summary timeline).num (fun f => f.face_detection_rate) = 0 ∧
    (generate_summary timeline).has_dominant = false ∧
    (calculate_performance_score (generate_summary timeline) qs).facial_score = 0 ∧
    (calculate_performance_score (generate_summary timeline) qs).breakdown.eye_contact
      = 0 ∧
    (calculate_performance_score (generate_summary timeline)
        qs).breakdown.smile_authenticity = 0 ∧
    (calculate_performance_score (generate_summary timeline) qs).breakdown.engagement
      = 0 := by
  have hfil : timeline.filter (fun f => f.face_detected) = [] := by
    rw [List.filter_eq_nil_iff]
    intro f hf
    simp [h f hf]
  have hsum : generate_summary timeline = .failed "No faces detected in video" := by
    simp [generate_summary, hfil]
  refine ⟨hsum, ?_, ?_, ?_, ?_, ?_, ?_⟩ <;> rw [hsum] <;>
    norm_num [calculate_performance_score, ESummary.num, ESummary.has_dominant,
      ESummary.dist, ESummary.truthy, eye_contact_score, dist_get, min_def]

theorem C3_witness :
    generate_summary [no_face_frame] = .failed "No faces detected in video" ∧
    (calculate_performance_score (generate_summary [no_face_frame]) none).facial_score
      = 0 :=
  ⟨(C3_no_face_summary_and_score [no_face_frame] none
      (fun f hf => by rw [List.mem_singleton] at hf; subst hf; rfl)).1,
   (C3_no_face_summary_and_score [no_face_frame] none
      (fun f hf => by rw [List.mem_singleton] at hf; subst hf; rfl)).2.2.2.1⟩

theorem pace_getD_inUnit (raw : AudioRaw) :
    inUnit ((analyze_speaking_rate raw).pace_score.getD 0.5) := by
  simp only [analyze_speaking_rate]
  split_ifs <;> norm_num [inUnit]

theorem monotone_inUnit (raw : AudioRaw) (h : 0 ≤ raw.pitch_std) :
    inUnit (analyze_prosody raw).monotone_score := by
  unfold analyze_prosody
  have hd : (0:ℚ) < 1 + raw.pitch_std / 50 := by linarith
  split_ifs
  · norm_num [inUnit]
  · refine ⟨le_of_lt ?_, ?_⟩
    · exact div_pos one_pos hd
    · rw [div_le_one hd]
      linarith

theorem variation_getD_inUnit (raw : AudioRaw) (h : 0 ≤ raw.pitch_std) :
    inUnit ((analyze_prosody raw).variation_score.getD 0.5) := by
  unfold analyze_prosody
  split_ifs
  · norm_num [inUnit]
  · refine ⟨?_, ?_⟩
    · simp only [Option.getD_some]
      exact le_min (by norm_num) (div_nonneg h (by norm_num))
    · simp only [Option.getD_some]
      exact min_le_left _ _

theorem consistency_inUnit (raw : AudioRaw) (hes : 0 ≤ raw.energy_std)
    (hrnn : ∀ r ∈ raw.rms, 0 ≤ r) :
    inUnit (analyze_energy raw).consistency_score := by
  have hmean : 0 ≤ qmean raw.rms :=
    div_nonneg (List.sum_nonneg hrnn) (by positivity)
  simp only [analyze_energy]
  split_ifs with h0
  · norm_num [inUnit]
  · have hm : 0 < qmean raw.rms := lt_of_le_of_ne hmean (Ne.symm h0)
    have hq : 0 ≤ raw.energy_std / qmean raw.rms := div_nonneg hes (le_of_lt hm)
    have h1 : 0 ≤ min 1 (raw.energy_std / qmean raw.rms) := le_min (by norm_num) hq
    have h2 := min_le_left (1:ℚ) (raw.energy_std / qmean raw.rms)
    exact ⟨by linarith, by linarith⟩

theorem confidence_ind_inUnit (raw : AudioRaw) (hrms : raw.rms ≠ []) :
    inUnit (analyze_energy raw).confidence_indicator := by
  have hlen : 0 < raw.rms.length := List.length_pos.mpr hrms
  have hlenq : (0:ℚ) < (raw.rms.length : ℚ) := by exact_mod_cast hlen
  have hcount : (raw.rms.countP
      (fun r => decide (r < qmean raw.rms * 0.5))) ≤ raw.rms.length :=
    List.countP_le_length _
  have hle : ((raw.rms.countP (fun r => decide (r < qmean raw.rms * 0.5)) : ℕ) : ℚ) /
      ((raw.rms.length : ℕ) : ℚ) ≤ 1 := by
    rw [div_le_one hlenq]
    exact_mod_cast hcount
  have hge : (0:ℚ) ≤ ((raw.rms.countP
      (fun r => decide (r < qmean raw.rms * 0.5)) : ℕ) : ℚ) / ((raw.rms.length : ℕ) : ℚ) :=
    by positivity
  simp only [analyze_energy]
  exact ⟨by linarith, by linarith⟩

theorem pause_naturalness_inUnit (pauses : List ℚ) :
    inUnit (calculate_pause_naturalness pauses) := by
  unfold calculate_pause_naturalness
  split_ifs with h1
  · norm_num [inUnit]
  · have hlen : 0 < pauses.length := List.length_pos.mpr h1
    have hlenq : (0:ℚ) < (pauses.length : ℚ) := by exact_mod_cast hlen
    have hcount : pauses.countP (fun p => decide ((0.3:ℚ) ≤ p ∧ p ≤ 0.8)) ≤
        pauses.length := List.countP_le_length _
    refine ⟨by positivity, ?_⟩
    rw [div_le_one hlenq]
    exact_mod_cast hcount

theorem naturalness_getD_inUnit (raw : AudioRaw) :
    inUnit ((analyze_pauses raw).naturalness_score.getD 0.5) := by
  simp only [analyze_pauses]
  split_ifs with h0
  · norm_num [inUnit]
  all_goals simpa [inUnit] using pause_naturalness_inUnit raw.pauses

theorem expressiveness_inUnit (raw : AudioRaw) (hps : 0 ≤ raw.pitch_std) :
    inUnit (analyze_pitch raw).expressiveness := by
  unfold analyze_pitch
  split_ifs
  · norm_num [inUnit]
  · simp only
    have ha0 : (0:ℚ) ≤ min 1 (raw.pitch_std / 80) :=
      le_min (by norm_num) (div_nonneg hps (by norm_num))
    have ha1 : min (1:ℚ) (raw.pitch_std / 80) ≤ 1 := min_le_left _ _
    have hb1 : 1 - |raw.pitch_std - 50| / 100 ≤ 1 := by
      have := abs_nonneg (raw.pitch_std - 50)
      have : (0:ℚ) ≤ |raw.pitch_std - 50| / 100 := by positivity
      linarith
    have hmul : min (1:ℚ) (raw.pitch_std / 80) * (1 - |raw.pitch_std - 50| / 100) ≤ 1 :=
      le_trans (mul_le_of_le_one_right ha0 hb1) ha1
    exact ⟨le_max_left _ _, max_le (by norm_num) hmul⟩

/-- C2: on every audio input — including every degenerate one (empty pitch
contour, silent or constant signal, zero duration, no speech intervals, no
pauses) — each score component the audio analyzer produces and the scoring
engine consumes is a well-defined rational in `[0, 1]`; the only numeric
hazards in the source (`std/mean` on a silent clip, absorbed by
`min(1.0, ·)`, and the `.get(·, 0.5)` defaults for keys the degenerate
branches omit) are modelled explicitly.  The hypotheses state that the
measured standard deviations are nonnegative and that the RMS frame list
`librosa.feature.rms` returns is nonempty with nonnegative entries, which
hold for every actual measurement. -/
theorem C2_audio_scores_in_unit (raw : AudioRaw)
    (hps : 0 ≤ raw.pitch_std) (hes : 0 ≤ raw.energy_std)
    (hrms : raw.rms ≠ []) (hrnn : ∀ r ∈ raw.rms, 0 ≤ r) :
    inUnit ((analyze_speaking_rate raw).pace_score.getD 0.5) ∧
    inUnit (analyze_prosody raw).monotone_score ∧
    inUnit ((analyze_prosody raw).variation_score.getD 0.5) ∧
    inUnit (analyze_energy raw).consistency_score ∧
    inUnit (analyze_energy raw).confidence_indicator ∧
    inUnit ((analyze_pauses raw).naturalness_score.getD 0.5) ∧
    inUnit (analyze_pitch raw).expressiveness ∧
    inUnit (calculate_quality_scores (analyze_prosody raw) (analyze_speaking_rate raw)
      (analyze_energy raw) (analyze_pauses raw) (analyze_pitch raw)).clarity ∧
    inUnit (calculate_quality_scores (analyze_prosody raw) (analyze_speaking_rate raw)
      (analyze_energy raw) (analyze_pauses raw) (analyze_pitch raw)).confidence ∧
    inUnit (calculate_quality_scores (analyze_prosody raw) (analyze_speaking_rate raw)
      (analyze_energy raw) (analyze_pauses raw) (analyze_pitch raw)).engagement ∧
    inUnit (calculate_quality_scores (analyze_prosody raw) (analyze_speaking_rate raw)
      (analyze_energy raw) (analyze_pauses raw) (analyze_pitch raw)).overall := by
  obtain ⟨hp1, hp2⟩ := pace_getD_inUnit raw
  obtain ⟨hm1, hm2⟩ := monotone_inUnit raw hps
  obtain ⟨hv1, hv2⟩ := variation_getD_inUnit raw hps
  obtain ⟨hc1, hc2⟩ := consistency_inUnit raw hes hrnn
  obtain ⟨hi1, hi2⟩ := confidence_ind_inUnit raw hrms
  obtain ⟨hn1, hn2⟩ := naturalness_getD_inUnit raw
  obtain ⟨he1, he2⟩ := expressiveness_inUnit raw hps
  have hclar : inUnit ((analyze_speaking_rate raw).pace_score.getD 0.5 * 0.6 +
      (analyze_energy raw).consistency_score * 0.4) :=
    ⟨by linarith, by linarith⟩
  have hconf : inUnit ((analyze_energy raw).confidence_indicator * 0.5 +
      (1 - (analyze_prosody raw).monotone_score) * 0.3 +
      ((analyze_pauses raw).naturalness_score.getD 0.5) * 0.2) :=
    ⟨by linarith, by linarith⟩
  have heng : inUnit (((analyze_prosody raw).variation_score.getD 0.5) * 0.4 +
      (analyze_pitch raw).expressiveness * 0.4 +
      (1 - (analyze_prosody raw).monotone_score) * 0.2) :=
    ⟨by linarith, by linarith⟩
  have hover : inUnit (((analyze_speaking_rate raw).pace_score.getD 0.5 * 0.6 +
      (analyze_energy raw).consistency_score * 0.4) * 0.3 +
      ((analyze_energy raw).confidence_indicator * 0.5 +
       (1 - (analyze_prosody raw).monotone_score) * 0.3 +
       ((analyze_pauses raw).naturalness_score.getD 0.5) * 0.2) * 0.4 +
      (((analyze_prosody raw).variation_score.getD 0.5) * 0.4 +
       (analyze_pitch raw).expressiveness * 0.4 +
       (1 - (analyze_prosody raw).monotone_score) * 0.2) * 0.3) := by
    obtain ⟨a1, a2⟩ := hclar
    obtain ⟨b1, b2⟩ := hconf
    obtain ⟨c1, c2⟩ := heng
    exact ⟨by linarith, by linarith⟩
  refine ⟨⟨hp1, hp2⟩, ⟨hm1, hm2⟩, ⟨hv1, hv2⟩, ⟨hc1, hc2⟩, ⟨hi1, hi2⟩, ⟨hn1, hn2⟩,
    ⟨he1, he2⟩, ?_, ?_, ?_, ?_⟩ <;>
    simp only [calculate_quality_scores]
  · exact rnd_inUnit 2 hclar
  · exact rnd_inUnit 2 hconf
  · exact rnd_inUnit 2 heng
  · exact rnd_inUnit 2 hover

theorem C2_witness :
    inUnit ((analyze_speaking_rate c2_raw).pace_score.getD 0.5) ∧
    inUnit (analyze_prosody c2_raw).monotone_score ∧
    inUnit ((analyze_prosody c2_raw).variation_score.getD 0.5) ∧
    inUnit (analyze_energy c2_raw).consistency_score ∧
    inUnit (analyze_energy c2_raw).confidence_indicator ∧
    inUnit ((analyze_pauses c2_raw).naturalness_score.getD 0.5) ∧
    inUnit (analyze_pitch c2_raw).expressiveness ∧
    inUnit (calculate_quality_scores (analyze_prosody c2_raw) (analyze_speaking_rate c2_raw)
      (analyze_energy c2_raw) (analyze_pauses c2_raw) (analyze_pitch c2_raw)).clarity ∧
    inUnit (calculate_quality_scores (analyze_prosody c2_raw) (analyze_speaking_rate c2_raw)
      (analyze_energy c2_raw) (analyze_pauses c2_raw) (analyze_pitch c2_raw)).confidence ∧
    inUnit (calculate_quality_scores (analyze_prosody c2_raw) (analyze_speaking_rate c2_raw)
      (analyze_energy c2_raw) (analyze_pauses c2_raw) (analyze_pitch c2_raw)).engagement ∧
    inUnit (calculate_quality_scores (analyze_prosody c2_raw) (analyze_speaking_rate c2_raw)
      (analyze_energy c2_raw) (analyze_pauses c2_raw) (analyze_pitch c2_raw)).overall :=
  C2_audio_scores_in_unit c2_raw (by norm_num [c2_raw]) (by norm_num [c2_raw])
    (by simp [c2_raw]) (by simp [c2_raw])

/-- C8: two runs of the report generator on identical emotion, audio and
metadata inputs differ at most in `generated_at`: every other field —
performance score included — is a pure function of the inputs, the clock
value being threaded only into `generated_at`. -/
theorem C8_report_deterministic (e : EmotionData) (a : AudioData) (m : Metadata)
    (t1 t2 : String) :
    (generate_report e a m t1).performance_score
        = (generate_report e a m t2).performance_score ∧
    (generate_report e a m t1).rating = (generate_report e a m t2).rating ∧
    (generate_report e a m t1).summary = (generate_report e a m t2).summary ∧
    (generate_report e a m t1).insights = (generate_report e a m t2).insights ∧
    (generate_report e a m t1).strengths = (generate_report e a m t2).strengths ∧
    (generate_report e a m t1).weaknesses = (generate_report e a m t2).weaknesses ∧
    (generate_report e a m t1).improvement_plan
        = (generate_report e a m t2).improvement_plan ∧
    (generate_report e a m t1).key_moments = (generate_report e a m t2).key_moments ∧
    (generate_report e a m t1).facial_metrics
        = (generate_report e a m t2).facial_metrics ∧
    (generate_report e a m t1).voice_metrics = (generate_report e a m t2).voice_metrics ∧
    (generate_report e a m t1).generated_at = t1 :=
  ⟨rfl, rfl, rfl, rfl, rfl, rfl, rfl, rfl, rfl, rfl, rfl⟩

/-- C4 (counterexample): with breakdown scores eye contact 0.3 (priority
high) and smile 0.5 (priority medium), the produced plan lists the medium
entry *before* the high entry — the sort key `(priority == "high",
current_score)` ascending puts `False` (medium) first — so the plan is not
sorted by priority descending as claimed. -/
theorem C4_counterexample :
    ¬ spec_plan_priority_desc (create_improvement_plan c4_bd) := by
  have hlist : (create_improvement_plan c4_bd).map (fun i => i.priority)
      = ["medium", "high"] := by
    norm_num [create_improvement_plan, plan_candidates, plan_entry, c4_bd,
      List.insertionSort, List.orderedInsert, planLe, pairLe, planKey,
      show (("medium" : String) == "high") = false from rfl,
      show (("high" : String) == "high") = true from rfl]
  intro hp
  unfold spec_plan_priority_desc at hp
  have hp2 : List.Pairwise (fun x y => ¬(x = "medium" ∧ y = "high"))
      ((create_improvement_plan c4_bd).map (fun i => i.priority)) :=
    List.pairwise_map.mpr hp
  rw [hlist] at hp2
  exact (List.pairwise_cons.mp hp2).1 "high" (by simp) (by decide)

theorem plan_candidates_length (bd : Breakdown) : (plan_candidates bd).length ≤ 5 := by
  unfold plan_candidates
  split_ifs <;> simp

/-- C4 (amended): the improvement plan contains exactly the entries of the
five-metric table whose breakdown score is below 0.6 (priority `"high"`
iff the score is below 0.4, as built by `plan_candidates`), is truncated
to at most 5 entries, and is stably sorted by the key
`(priority == "high", current_score)` *ascending* — so all medium-priority
entries precede all high-priority entries (the reverse of the claimed
order), with each priority group ordered by `current_score` ascending. -/
theorem C4_plan_entries_and_order (bd : Breakdown) :
    List.Perm (create_improvement_plan bd) (plan_candidates bd) ∧
    (create_improvement_plan bd).length ≤ 5 ∧
    List.Sorted planLe (create_improvement_plan bd) ∧
    (create_improvement_plan bd).Pairwise
      (fun a b => ¬(a.priority = "high" ∧ b.priority = "medium")) ∧
    (create_improvement_plan bd).Pairwise
      (fun a b => a.priority = b.priority → a.current_score ≤ b.current_score) := by
  have hlen : (List.insertionSort planLe (plan_candidates bd)).length ≤ 5 := by
    rw [(List.perm_insertionSort planLe (plan_candidates bd)).length_eq]
    exact plan_candidates_length bd
  have htake : create_improvement_plan bd
      = List.insertionSort planLe (plan_candidates bd) := by
    unfold create_improvement_plan
    exact List.take_of_length_le hlen
  have hsorted : List.Sorted planLe (create_improvement_plan bd) := by
    rw [htake]
    exact List.sorted_insertionSort planLe (plan_candidates bd)
  refine ⟨?_, ?_, hsorted, ?_, ?_⟩
  · rw [htake]
    exact List.perm_insertionSort planLe (plan_candidates bd)
  · rw [htake]
    exact hlen
  · refine hsorted.imp ?_
    intro a b hab
    rintro ⟨ha, hb⟩
    rcases hab with ⟨h1, _⟩ | ⟨h1, _⟩ <;>
      simp [planKey, ha, hb] at h1
  · refine hsorted.imp ?_
    intro a b hab hpq
    rcases hab with ⟨h1, h2⟩ | ⟨_, h2⟩
    · exfalso
      simp only [planKey, hpq] at h1 h2
      rw [h1] at h2
      exact absurd h2 (by simp)
    · exact h2

theorem C4_witness :
    List.Perm (create_improvement_plan c4_bd) (plan_candidates c4_bd) ∧
    (create_improvement_plan c4_bd).length ≤ 5 ∧
    List.Sorted planLe (create_improvement_plan c4_bd) ∧
    (create_improvement_plan c4_bd).Pairwise
      (fun a b => ¬(a.priority = "high" ∧ b.priority = "medium")) ∧
    (create_improvement_plan c4_bd).Pairwise
      (fun a b => a.priority = b.priority → a.current_score ≤ b.current_score) :=
  C4_plan_entries_and_order c4_bd

theorem mem_firstKeys (l : List String) (a : String) : a ∈ firstKeys l ↔ a ∈ l := by
  induction l using firstKeys.induct with
  | case1 => simp [firstKeys]
  | case2 e t ih =>
      rw [firstKeys]
      by_cases hae : a = e
      · subst hae; simp
      · simp only [List.mem_cons, ih, List.mem_filter]
        constructor
        · rintro (h | ⟨h, _⟩)
          · exact Or.inl h
          · exact Or.inr h
        · rintro (h | h)
          · exact Or.inl h
          · exact Or.inr ⟨h, by simpa using hae⟩

theorem indexOf_filter_le (p : String → Bool) :
    ∀ (t : List String) (a b : String), a ∈ t.filter p → b ∈ t.filter p →
      (t.filter p).indexOf a ≤ (t.filter p).indexOf b → t.indexOf a ≤ t.indexOf b := by
  intro t
  induction t with
  | nil => intro a b ha _ _; simp at ha
  | cons c t' ih =>
      intro a b ha hb h
      by_cases hpc : p c
      · rw [List.filter_cons_of_pos hpc] at ha hb h
        by_cases hac : a = c
        · subst hac
          rw [List.indexOf_cons_self]
          exact Nat.zero_le _
        · have ha' : a ∈ t'.filter p := by
            rcases List.mem_cons.mp ha with h1 | h1
            · exact absurd h1 hac
            · exact h1
          by_cases hbc : b = c
          · subst hbc
            rw [List.indexOf_cons_self, List.indexOf_cons_ne _ (Ne.symm hac)] at h
            omega
          · have hb' : b ∈ t'.filter p := by
              rcases List.mem_cons.mp hb with h1 | h1
              · exact absurd h1 hbc
              · exact h1
            rw [List.indexOf_cons_ne _ (Ne.symm hac),
              List.indexOf_cons_ne _ (Ne.symm hbc)] at h
            have := ih a b ha' hb' (by omega)
            rw [List.indexOf_cons_ne _ (Ne.symm hac),
              List.indexOf_cons_ne _ (Ne.symm hbc)]
            omega
      · rw [List.filter_cons_of_neg hpc] at ha hb h
        have hac : a ≠ c := by
          intro hh; subst hh
          exact hpc (List.mem_filter.mp ha).2
        have hbc : b ≠ c := by
          intro hh; subst hh
          exact hpc (List.mem_filter.mp hb).2
        rw [List.indexOf_cons_ne _ (Ne.symm hac), List.indexOf_cons_ne _ (Ne.symm hbc)]
        have := ih a b ha hb h
        omega

theorem firstKeys_order (l : List String) :
    ∀ u a v, firstKeys l = u ++ a :: v → ∀ b ∈ v, l.indexOf a ≤ l.indexOf b := by
  induction l using firstKeys.induct with
  | case1 =>
      intro u a v h
      rw [firstKeys] at h
      exact absurd h.symm (List.append_ne_nil_of_right_ne_nil u (by simp))
  | case2 e t ih =>
      intro u a v h b hb
      rw [firstKeys] at h
      cases u with
      | nil =>
          rw [List.nil_append] at h
          injection h with h1 _
          subst h1
          rw [List.indexOf_cons_self]
          exact Nat.zero_le _
      | cons e' u' =>
          rw [List.cons_append] at h
          injection h with h1 h2
          have hamem : a ∈ t.filter (fun x => decide (x ≠ e)) := by
            rw [← mem_firstKeys, h2]
            exact List.mem_append_right u' (List.mem_cons_self a v)
          have hbmem : b ∈ t.filter (fun x => decide (x ≠ e)) := by
            rw [← mem_firstKeys, h2]
            exact List.mem_append_right u' (List.mem_cons_of_mem a hb)
          have hane : a ≠ e := by
            have := (List.mem_filter.mp hamem).2
            simpa using this
          have hbne : b ≠ e := by
            have := (List.mem_filter.mp hbmem).2
            simpa using this
          have hrec := ih u' a v h2 b hb
          have hlift := indexOf_filter_le (fun x => decide (x ≠ e)) t a b hamem hbmem hrec
          rw [List.indexOf_cons_ne _ (Ne.symm hane), List.indexOf_cons_ne _ (Ne.symm hbne)]
          omega

theorem counter_items_map_fst (l : List String) :
    (counter_items l).map Prod.fst = firstKeys l := by
  unfold counter_items
  rw [List.map_map]
  rw [show (Prod.fst ∘ fun e => (e, l.count e)) = fun e : String => e from rfl]
  exact List.map_id' (firstKeys l)

theorem counter_items_snd (l : List String) (p : String × ℕ) (h : p ∈ counter_items l) :
    p.2 = l.count p.1 := by
  simp only [counter_items, List.mem_map] at h
  obtain ⟨e, _, rfl⟩ := h
  rfl

theorem counter_items_fst_mem (l : List String) (p : String × ℕ)
    (h : p ∈ counter_items l) : p.1 ∈ l := by
  simp only [counter_items, List.mem_map] at h
  obtain ⟨e, he, rfl⟩ := h
  exact (mem_firstKeys l e).mp he

theorem counter_items_complete (l : List String) (e : String) (h : e ∈ l) :
    (e, l.count e) ∈ counter_items l := by
  simp only [counter_items, List.mem_map]
  exact ⟨e, (mem_firstKeys l e).mpr h, rfl⟩

theorem foldl_first_max :
    ∀ (l : List (String × ℕ)) (p : String × ℕ),
      (l.foldl (fun best q => if best.2 < q.2 then q else best) p = p ∧
        ∀ q ∈ l, q.2 ≤ p.2) ∨
      (∃ l₁ r l₂, l = l₁ ++ r :: l₂ ∧
        l.foldl (fun best q => if best.2 < q.2 then q else best) p = r ∧
        p.2 < r.2 ∧ (∀ q ∈ l₁, q.2 < r.2) ∧ (∀ q ∈ l₂, q.2 ≤ r.2)) := by
  intro l
  induction l with
  | nil => intro p; left; exact ⟨rfl, by simp⟩
  | cons q t ih =>
      intro p
      rw [List.foldl_cons]
      by_cases hpq : p.2 < q.2
      · rw [if_pos hpq]
        rcases ih q with ⟨heq, hle⟩ | ⟨t₁, r, t₂, hsplit, heq, hlt, h₁, h₂⟩
        · right
          exact ⟨[], q, t, by simp, heq, hpq, by simp, hle⟩
        · right
          refine ⟨q :: t₁, r, t₂, by simp [hsplit], heq, lt_trans hpq hlt, ?_, h₂⟩
          intro x hx
          rcases List.mem_cons.mp hx with h | h
          · subst h; exact hlt
          · exact h₁ x h
      · rw [if_neg hpq]
        rcases ih p with ⟨heq, hle⟩ | ⟨t₁, r, t₂, hsplit, heq, hlt, h₁, h₂⟩
        · left
          refine ⟨heq, ?_⟩
          intro x hx
          rcases List.mem_cons.mp hx with h | h
          · subst h; omega
          · exact hle x h
        · right
          refine ⟨q :: t₁, r, t₂, by simp [hsplit], heq, hlt, ?_, h₂⟩
          intro x hx
          rcases List.mem_cons.mp hx with h | h
          · subst h; omega
          · exact h₁ x h

theorem dominant_of_spec (emotions : List String) (h : emotions ≠ []) :
    dominant_of emotions ∈ emotions ∧
    (∀ e ∈ emotions, emotions.count e ≤ emotions.count (dominant_of emotions)) ∧
    (∀ e ∈ emotions, emotions.count e = emotions.count (dominant_of emotions) →
      emotions.indexOf (dominant_of emotions) ≤ emotions.indexOf e) := by
  have hkeys_ne : counter_items emotions ≠ [] := by
    cases emotions with
    | nil => exact absurd rfl h
    | cons e t =>
        simp only [counter_items, firstKeys]
        simp
  rcases hitem : counter_items emotions with _ | ⟨p, ts⟩
  · exact absurd hitem hkeys_ne
  have hdom : dominant_of emotions
      = (ts.foldl (fun best q => if best.2 < q.2 then q else best) p).1 := by
    unfold dominant_of first_max_by
    rw [hitem]
    rfl
  have hpmem : p ∈ counter_items emotions := by rw [hitem]; exact List.mem_cons_self p ts
  have hfst : firstKeys emotions = p.1 :: ts.map Prod.fst := by
    rw [← counter_items_map_fst, hitem, List.map_cons]
  rcases foldl_first_max ts p with ⟨heq, hle⟩ | ⟨t₁, r, t₂, hsplit, heq, hlt, h₁, h₂⟩
  · -- the head of the counter already attains the maximum
    rw [hdom, heq]
    have hcnt : p.2 = emotions.count p.1 := counter_items_snd _ p hpmem
    refine ⟨counter_items_fst_mem _ p hpmem, ?_, ?_⟩
    · intro e he
      have hq := counter_items_complete emotions e he
      rw [hitem] at hq
      rcases List.mem_cons.mp hq with h1 | h1
      · rw [show e = p.1 from congrArg Prod.fst h1]
      · have := hle _ h1
        simpa [hcnt] using this
    · intro e he _
      have hq := counter_items_complete emotions e he
      rw [hitem] at hq
      rcases List.mem_cons.mp hq with h1 | h1
      · rw [show e = p.1 from congrArg Prod.fst h1]
      · have hbv : e ∈ ts.map Prod.fst :=
          List.mem_map_of_mem Prod.fst h1
        exact firstKeys_order emotions [] p.1 (ts.map Prod.fst) (by simpa using hfst) e hbv
  · -- a strictly larger entry appears later; `r` is the first such maximum
    rw [hdom, heq]
    have hrmem : r ∈ counter_items emotions := by
      rw [hitem, hsplit]
      exact List.mem_cons_of_mem p (List.mem_append_right t₁ (List.mem_cons_self r t₂))
    have hcnt : r.2 = emotions.count r.1 := counter_items_snd _ r hrmem
    have hpcnt : p.2 = emotions.count p.1 := counter_items_snd _ p hpmem
    refine ⟨counter_items_fst_mem _ r hrmem, ?_, ?_⟩
    · intro e he
      have hq := counter_items_complete emotions e he
      rw [hitem, hsplit] at hq
      rcases List.mem_cons.mp hq with h1 | h1
      · have : emotions.count e = p.2 := by
          rw [show e = p.1 from congrArg Prod.fst h1, ← hpcnt]
        omega
      · rcases List.mem_append.mp h1 with h2 | h2
        · have := h₁ _ h2
          simp only at this
          omega
        · rcases List.mem_cons.mp h2 with h3 | h3
          · rw [show e = r.1 from congrArg Prod.fst h3]
          · have := h₂ _ h3
            simpa [hcnt] using this
    · intro e he hecnt
      have hq := counter_items_complete emotions e he
      rw [hitem, hsplit] at hq
      rcases List.mem_cons.mp hq with h1 | h1
      · exfalso
        have : emotions.count e = p.2 := by
          rw [show e = p.1 from congrArg Prod.fst h1, ← hpcnt]
        omega
      · rcases List.mem_append.mp h1 with h2 | h2
        · exfalso
          have := h₁ _ h2
          simp only at this
          omega
        · rcases List.mem_cons.mp h2 with h3 | h3
          · rw [show e = r.1 from congrArg Prod.fst h3]
          · have hbv : e ∈ t₂.map Prod.fst := List.mem_map_of_mem Prod.fst h3
            have hsplit2 : firstKeys emotions
                = (p.1 :: t₁.map Prod.fst) ++ r.1 :: t₂.map Prod.fst := by
              rw [hfst, hsplit]
              simp
            exact firstKeys_order emotions (p.1 :: t₁.map Prod.fst) r.1
              (t₂.map Prod.fst) hsplit2 e hbv

/-- C5: for every non-empty sequence of face-detected frames the summary's
`dominant_emotion` is an argmax of the emotion histogram (its count is
maximal among the labels that occur), and any label tying that count first
occurs no earlier than the dominant label — the first-seen label wins,
because `Counter` iterates keys in first-insertion order and
`most_common(1)` is a stable descending selection. -/
theorem C5_dominant_emotion (timeline : List FrameRec)
    (hne : timeline ≠ []) (hface : ∀ f ∈ timeline, f.face_detected = true) :
    ∃ s, generate_summary timeline = ESummary.ok s ∧
      s.dominant_emotion ∈ timeline.map (fun f => f.emotion) ∧
      (∀ e ∈ timeline.map (fun f => f.emotion),
        (timeline.map (fun f => f.emotion)).count e ≤
          (timeline.map (fun f => f.emotion)).count s.dominant_emotion) ∧
      (∀ e ∈ timeline.map (fun f => f.emotion),
        (timeline.map (fun f => f.emotion)).count e =
            (timeline.map (fun f => f.emotion)).count s.dominant_emotion →
        (timeline.map (fun f => f.emotion)).indexOf s.dominant_emotion ≤
          (timeline.map (fun f => f.emotion)).indexOf e) := by
  have hval : timeline.filter (fun f => f.face_detected) = timeline :=
    List.filter_eq_self.mpr (fun a ha => by simpa using hface a ha)
  have hmap_ne : timeline.map (fun f => f.emotion) ≠ [] := by
    simpa using hne
  obtain ⟨hd, hmax, htie⟩ :=
    dominant_of_spec (timeline.map (fun f => f.emotion)) hmap_ne
  unfold generate_summary
  rw [hval, if_neg hne]
  exact ⟨_, rfl, hd, hmax, htie⟩

theorem C5_witness :
    ∃ s, generate_summary c5_timeline = ESummary.ok s ∧
      s.dominant_emotion ∈ c5_timeline.map (fun f => f.emotion) ∧
      (∀ e ∈ c5_timeline.map (fun f => f.emotion),
        (c5_timeline.map (fun f => f.emotion)).count e ≤
          (c5_timeline.map (fun f => f.emotion)).count s.dominant_emotion) ∧
      (∀ e ∈ c5_timeline.map (fun f => f.emotion),
        (c5_timeline.map (fun f => f.emotion)).count e =
            (c5_timeline.map (fun f => f.emotion)).count s.dominant_emotion →
        (c5_timeline.map (fun f => f.emotion)).indexOf s.dominant_emotion ≤
          (c5_timeline.map (fun f => f.emotion)).indexOf e) :=
  C5_dominant_emotion c5_timeline (by simp [c5_timeline])
    (fun f hf => by
      rcases List.mem_cons.mp hf with h | hf2
      · subst h; rfl
      rcases List.mem_cons.mp hf2 with h | hf3
      · subst h; rfl
      rcases List.mem_cons.mp hf3 with h | hf4
      · subst h; rfl
      · exact absurd hf4 (List.not_mem_nil f))

theorem engLex_trans {a b c : ℚ × ℚ} (h1 : engLex a b) (h2 : engLex b c) : engLex a c := by
  rcases h1 with h1 | ⟨h1, h1t⟩ <;> rcases h2 with h2 | ⟨h2, h2t⟩
  · exact Or.inl (lt_trans h2 h1)
  · exact Or.inl (h2 ▸ h1)
  · exact Or.inl (by rw [h1]; exact h2)
  · exact Or.inr ⟨h1.trans h2, le_trans h1t h2t⟩

theorem orderedInsert_engLex_sorted (a : ℚ × ℚ) :
    ∀ l : List (ℚ × ℚ), List.Sorted engLex l → (∀ b ∈ l, a.1 < b.1) →
      List.Sorted engLex (List.orderedInsert engPairDesc a l) := by
  intro l
  induction l with
  | nil => intro _ _; simp [List.orderedInsert, List.Sorted]
  | cons b t ih =>
      intro hs hts
      rw [List.orderedInsert]
      split_ifs with hr
      · -- a goes in front: b.2 ≤ a.2, and a is earlier than everything here
        have hab : engLex a b := by
          rcases lt_or_eq_of_le (show b.2 ≤ a.2 from hr) with h | h
          · exact Or.inl h
          · exact Or.inr ⟨h.symm, le_of_lt (hts b (List.mem_cons_self b t))⟩
        rw [List.sorted_cons]
        refine ⟨?_, hs⟩
        intro c hc
        rcases List.mem_cons.mp hc with h | h
        · exact h ▸ hab
        · exact engLex_trans hab ((List.sorted_cons.mp hs).1 c h)
      · -- b stays in front: a.2 > b.2 is false, i.e. a.2 > b.2 fails, so a.2 < b.2 is false?
        have hba : engLex b a := Or.inl (lt_of_not_le hr)
        obtain ⟨hbt, hst⟩ := List.sorted_cons.mp hs
        rw [List.sorted_cons]
        refine ⟨?_, ih hst (fun c hc => hts c (List.mem_cons_of_mem b hc))⟩
        intro c hc
        rcases (List.mem_orderedInsert engPairDesc).mp hc with h | h
        · exact h ▸ hba
        · exact hbt c h

theorem insertionSort_engLex_sorted :
    ∀ l : List (ℚ × ℚ), l.Pairwise (fun p q => p.1 < q.1) →
      List.Sorted engLex (List.insertionSort engPairDesc l) := by
  intro l
  induction l with
  | nil => intro _; simp [List.Sorted]
  | cons a t ih =>
      intro hp
      obtain ⟨hat, hpt⟩ := List.pairwise_cons.mp hp
      rw [List.insertionSort]
      refine orderedInsert_engLex_sorted a _ (ih hpt) ?_
      intro b hb
      exact hat b ((List.perm_insertionSort engPairDesc t).mem_iff.mp hb)

theorem le_everyNth_length {α : Type} :
    ∀ (m : ℕ) (l : List α) (k : ℕ), 1 ≤ k → m * k < l.length →
      m + 1 ≤ (everyNth l k).length := by
  intro m
  induction m with
  | zero =>
      intro l k _ h
      cases l with
      | nil => simp at h
      | cons a t => rw [everyNth]; simp
  | succ n ih =>
      intro l k hk h
      cases l with
      | nil => simp at h
      | cons a t =>
          rw [everyNth, List.length_cons]
          have hdrop : (t.drop (k - 1)).length = t.length - (k - 1) :=
            List.length_drop _ _
          have hlt : n * k < (t.drop (k - 1)).length := by
            rw [hdrop]
            simp only [List.length_cons] at h
            have : (n + 1) * k = n * k + k := by ring
            omega
          have := ih (t.drop (k - 1)) k hk hlt
          omega

/-- C6: for every timeline with strictly increasing timestamps, the
key-moment list is sorted by timestamp ascending and capped at 10; its
`peak_engagement` moments are exactly the first three entries of the
stable descending engagement sort of the face-detected `(timestamp,
engagement)` pairs (three of them as soon as three face-detected frames
exist), each selected pair beating every unselected pair either strictly
on engagement or, on a tie, by an earlier timestamp; when more than 5
face-detected frames lack eye contact, exactly 3 `improvement_opportunity`
moments are added.  In particular, on the 10-frame example with engagement
levels 0.1, 0.9, 0.2, 0.8, 0.3, 0.7, 0.1, 0.6, 0.0, 0.5 the produced list
is the three peak moments at the timestamps of the frames with engagement
0.9, 0.8 and 0.7, in timestamp order. -/
theorem C6_key_moments :
    (∀ timeline : List FrameRec,
      timeline.Pairwise (fun f g => f.timestamp < g.timestamp) →
      List.Sorted momentTsLe (identify_key_moments timeline) ∧
      (identify_key_moments timeline).length ≤ 10 ∧
      List.Perm
        ((identify_key_moments timeline).filter (fun m => m.type == "peak_engagement"))
        (((List.insertionSort engPairDesc
            ((timeline.filter (fun f => f.face_detected)).map
              (fun f => (f.timestamp, f.engagement_level)))).take 3).map mk_peak_moment) ∧
      (3 ≤ ((timeline.filter (fun f => f.face_detected)).map
              (fun f => (f.timestamp, f.engagement_level))).length →
        ((identify_key_moments timeline).filter
          (fun m => m.type == "peak_engagement")).length = 3) ∧
      (∀ p ∈ (List.insertionSort engPairDesc
            ((timeline.filter (fun f => f.face_detected)).map
              (fun f => (f.timestamp, f.engagement_level)))).take 3,
        ∀ q ∈ (List.insertionSort engPairDesc
            ((timeline.filter (fun f => f.face_detected)).map
              (fun f => (f.timestamp, f.engagement_level)))).drop 3, engLex p q) ∧
      (5 < (timeline.filter (fun f => f.face_detected && !f.eye_contact)).length →
        ((identify_key_moments timeline).filter
          (fun m => m.type == "improvement_opportunity")).length = 3)) ∧
    ((identify_key_moments c6_frames).map (fun m => m.timestamp) = [1/5, 3/5, 1] ∧
     (identify_key_moments c6_frames).map (fun m => m.type)
        = ["peak_engagement", "peak_engagement", "peak_engagement"]) := by
  constructor
  · intro timeline hts
    set pairs := (timeline.filter (fun f => f.face_detected)).map
      (fun f => (f.timestamp, f.engagement_level)) with hpairs
    set spairs := List.insertionSort engPairDesc pairs with hsp
    set poor := timeline.filter (fun f => f.face_detected && !f.eye_contact) with hpoor
    set peaks := if pairs.isEmpty then ([] : List Moment)
      else (spairs.take 3).map mk_peak_moment with hpeaks
    set imps := if 5 < poor.length then
        ((everyNth poor (poor.length / 3)).take 3).map mk_imp_moment
      else ([] : List Moment) with himps
    have hM : identify_key_moments timeline
        = (List.insertionSort momentTsLe (peaks ++ imps)).take 10 := rfl
    have hpeaks_len : peaks.length ≤ 3 := by
      rw [hpeaks]
      split_ifs
      · simp
      · rw [List.length_map]
        exact List.length_take_le _ _
    have himps_len : imps.length ≤ 3 := by
      rw [himps]
      split_ifs
      · rw [List.length_map]
        exact List.length_take_le _ _
      · simp
    have hbig_len : (List.insertionSort momentTsLe (peaks ++ imps)).length ≤ 10 := by
      rw [(List.perm_insertionSort momentTsLe _).length_eq, List.length_append]
      omega
    have htake : (List.insertionSort momentTsLe (peaks ++ imps)).take 10
        = List.insertionSort momentTsLe (peaks ++ imps) :=
      List.take_of_length_le hbig_len
    have hpeak_filter : peaks.filter (fun m => m.type == "peak_engagement") = peaks := by
      rw [hpeaks]
      split_ifs
      · simp
      · refine List.filter_eq_self.mpr ?_
        intro m hm
        obtain ⟨p, _, rfl⟩ := List.mem_map.mp hm
        rfl
    have himp_nopeak : imps.filter (fun m => m.type == "peak_engagement") = [] := by
      rw [himps]
      split_ifs
      · refine List.filter_eq_nil_iff.mpr ?_
        intro m hm
        obtain ⟨f, _, rfl⟩ := List.mem_map.mp hm
        simp [mk_imp_moment]
      · simp
    have hpeak_noimp : peaks.filter (fun m => m.type == "improvement_opportunity")
        = [] := by
      rw [hpeaks]
      split_ifs
      · simp
      · refine List.filter_eq_nil_iff.mpr ?_
        intro m hm
        obtain ⟨p, _, rfl⟩ := List.mem_map.mp hm
        simp [mk_peak_moment]
    have himp_filter : imps.filter (fun m => m.type == "improvement_opportunity")
        = imps := by
      rw [himps]
      split_ifs
      · refine List.filter_eq_self.mpr ?_
        intro m hm
        obtain ⟨f, _, rfl⟩ := List.mem_map.mp hm
        rfl
      · simp
    have hfilter_perm : ∀ p : Moment → Bool,
        List.Perm ((identify_key_moments timeline).filter p)
          (peaks.filter p ++ imps.filter p) := by
      intro p
      rw [hM, htake, ← List.filter_append]
      exact (List.perm_insertionSort momentTsLe (peaks ++ imps)).filter p
    have hperm_peak : List.Perm
        ((identify_key_moments timeline).filter (fun m => m.type == "peak_engagement"))
        ((spairs.take 3).map mk_peak_moment) := by
      have h1 := hfilter_perm (fun m => m.type == "peak_engagement")
      rw [hpeak_filter, himp_nopeak, List.append_nil] at h1
      by_cases hemp : pairs.isEmpty
      · have hnil : pairs = [] := List.isEmpty_iff.mp hemp
        rw [hpeaks, if_pos hemp] at h1
        rw [hsp, hnil]
        simpa using h1
      · rw [hpeaks, if_neg hemp] at h1
        exact h1
    have hppairs : pairs.Pairwise (fun p q : ℚ × ℚ => p.1 < q.1) := by
      rw [hpairs, List.pairwise_map]
      exact List.Pairwise.filter _ hts
    refine ⟨?_, ?_, hperm_peak, ?_, ?_, ?_⟩
    · rw [hM, htake]
      exact List.sorted_insertionSort momentTsLe _
    · rw [hM]
      exact List.length_take_le _ _
    · intro h3
      rw [hperm_peak.length_eq, List.length_map, List.length_take,
        hsp, (List.perm_insertionSort engPairDesc pairs).length_eq]
      omega
    · have hsorted : List.Sorted engLex spairs := insertionSort_engLex_sorted pairs hppairs
      rw [← List.take_append_drop 3 spairs] at hsorted
      intro p hp q hq
      exact (List.pairwise_append.mp hsorted).2.2 p hp q hq
    · intro h5
      have h1 := hfilter_perm (fun m => m.type == "improvement_opportunity")
      rw [hpeak_noimp, himp_filter, List.nil_append] at h1
      rw [h1.length_eq, himps, if_pos h5, List.length_map, List.length_take]
      have hk1 : 1 ≤ poor.length / 3 := by omega
      have hk2 : 2 * (poor.length / 3) < poor.length := by omega
      have h3 := le_everyNth_length 2 poor (poor.length / 3) hk1 hk2
      omega
  · constructor
    · norm_num [identify_key_moments, c6_frames, c6_frame, List.insertionSort,
        List.orderedInsert, engPairDesc, momentTsLe, mk_peak_moment, everyNth]
    · norm_num [identify_key_moments, c6_frames, c6_frame, List.insertionSort,
        List.orderedInsert, engPairDesc, momentTsLe, mk_peak_moment, everyNth]

theorem C6_witness :
    List.Sorted momentTsLe (identify_key_moments c6_frames) ∧
    (identify_key_moments c6_frames).length ≤ 10 :=
  ⟨(C6_key_moments.1 c6_frames
      (by norm_num [c6_frames, c6_frame, List.pairwise_cons])).1,
   (C6_key_moments.1 c6_frames
      (by norm_num [c6_frames, c6_frame, List.pairwise_cons])).2.1⟩

theorem fifth_natCast_div_five (k : ℕ) : fifth ((k : ℚ) / 5) = true := by
  have h : 5 * ((k : ℚ) / 5) = (k : ℚ) := by ring
  rw [fifth, h]
  simp [Rat.den_natCast, Rat.num_natCast]

theorem mem_everyNth {α : Type} :
    ∀ (l : List α) (k : ℕ) (a : α), a ∈ everyNth l k → a ∈ l := by
  intro l k
  induction l, k using everyNth.induct with
  | case1 k => intro a h; simp [everyNth] at h
  | case2 b t k ih =>
      intro a h
      rw [everyNth] at h
      rcases List.mem_cons.mp h with h1 | h1
      · exact h1 ▸ List.mem_cons_self b t
      · exact List.mem_cons_of_mem b (List.mem_of_mem_drop (ih a h1))

theorem key_moment_ts_mem (timeline : List FrameRec) (m : Moment)
    (hm : m ∈ identify_key_moments timeline) :
    ∃ f ∈ timeline, m.timestamp = f.timestamp := by
  simp only [identify_key_moments] at hm
  have hm2 := (List.perm_insertionSort momentTsLe _).mem_iff.mp (List.mem_of_mem_take hm)
  rcases List.mem_append.mp hm2 with h | h
  · split_ifs at h with hemp
    · simp at h
    · obtain ⟨p, hp, rfl⟩ := List.mem_map.mp h
      have hp2 := (List.perm_insertionSort engPairDesc _).mem_iff.mp
        (List.mem_of_mem_take hp)
      obtain ⟨f, hf, rfl⟩ := List.mem_map.mp hp2
      exact ⟨f, List.mem_of_mem_filter hf, rfl⟩
  · split_ifs at h with h5
    · obtain ⟨f, hf, rfl⟩ := List.mem_map.mp h
      have hf2 := mem_everyNth _ _ _ (List.mem_of_mem_take hf)
      exact ⟨f, List.mem_of_mem_filter hf2, rfl⟩
    · simp at h

/-- C9: the per-frame record built by the facial analyzer carries
`timestamp = frame index / 5` whether or not a face was detected — the
function takes no frame-rate or stride input at all — and consequently
every key moment extracted from an analyzer-produced timeline has a
timestamp that is a whole number of fifths of a second. -/
theorem C9_frame_timestamps :
    (∀ (det : Option FaceDetected) (idx : ℕ),
      (analyze_single_frame det idx).timestamp = (idx : ℚ) / 5) ∧
    (∀ dets : List (Option FaceDetected),
      ((identify_key_moments (analyze_frames dets).timeline).all
        (fun m => fifth m.timestamp)) = true) := by
  constructor
  · intro det idx
    cases det <;> rfl
  · intro dets
    rw [List.all_eq_true]
    intro m hm
    obtain ⟨f, hf, hts⟩ := key_moment_ts_mem _ m hm
    have hf2 : f ∈ dets.enum.map (fun p => analyze_single_frame p.2 p.1) := hf
    obtain ⟨⟨i, d⟩, _, rfl⟩ := List.mem_map.mp hf2
    have : (analyze_single_frame d i).timestamp = (i : ℚ) / 5 := by cases d <;> rfl
    rw [hts, this]
    exact fifth_natCast_div_five i
